import Mathlib

/-!
# Sming `TcpConnection`: a shallow embedding of `TcpConnection.cpp`

The connection object is a record, the lwIP transport and the data source
stream are parameters (state machines whose answers may depend on everything
that happened before), and every call that leaves the class is appended to a
log, in program order.  Loops that the source does not bound are run on fuel
and return `none` when the fuel runs out.
-/

namespace Sming

/-! ## lwIP types and constants -/

/-- Status code of lwIP, `err_t`, a signed integer. -/
abbrev err_t := Int

/-- The lwIP status `ERR_OK`. -/
def ERR_OK : err_t := 0

/-- The lwIP status `ERR_MEM` (value of lwIP 1.4 `err.h`; only its being distinct
from the other codes is used). -/
def ERR_MEM : err_t := -1

/-- The lwIP status `ERR_INPROGRESS` (value of lwIP 1.4 `err.h`). -/
def ERR_INPROGRESS : err_t := -5

/-- The lwIP status `ERR_ABRT` (value of lwIP 1.4 `err.h`). -/
def ERR_ABRT : err_t := -10

/-- The limit of `unsigned short`, `USHRT_MAX`. -/
def USHRT_MAX : Nat := 65535

/-- The lwIP flag `TCP_WRITE_FLAG_COPY`. -/
def TCP_WRITE_FLAG_COPY : Nat := 1

/-- The lwIP flag `TCP_WRITE_FLAG_MORE`. -/
def TCP_WRITE_FLAG_MORE : Nat := 2

/-- A transport handle, `tcp_pcb*`, when it is not `NULL`; `Option Pcb` is the
pointer, `none` being `NULL`. -/
abbrev Pcb := Nat

/-- An IPv4 address, `ip_addr_t` or `IPAddress`. -/
abbrev IPAddress := Nat

/-- A received buffer chain, `pbuf`, of which the code reads `tot_len` only. -/
structure pbuf where
  tot_len : Nat
  deriving DecidableEq, Repr

/-- The cause tag of `onReadyToSendData`. -/
inductive TcpConnectionEvent where
  | eTCE_Connected
  | eTCE_Received
  | eTCE_Sent
  | eTCE_Poll
  deriving DecidableEq, Repr

/-- Everything the class does that is visible outside it, one constructor per
callee.  In the callback registrations the flag says whether the argument is
the object or function (`true`) or `NULL` (`false`); `tcp_new` and `tcp_write`
are logged with the value they returned, `tcp_write` with the length lwIP
receives, and `onError` with the handle the object holds at the moment the
handler is entered. -/
inductive Ev where
  | tcp_new (res : Option Pcb)
  | tcp_arg (pcb : Option Pcb) (arg : Bool)
  | tcp_sent (pcb : Option Pcb) (cb : Bool)
  | tcp_recv (pcb : Option Pcb) (cb : Bool)
  | tcp_err (pcb : Option Pcb) (cb : Bool)
  | tcp_poll (pcb : Option Pcb) (cb : Bool) (interval : Nat)
  | tcp_accept (pcb : Option Pcb) (cb : Bool)
  | tcp_close (pcb : Option Pcb)
  | tcp_abort (pcb : Option Pcb)
  | tcp_write (pcb : Option Pcb) (len : Int) (apiflags : Nat) (res : err_t)
  | tcp_sndbuf (pcb : Option Pcb)
  | tcp_sndqueuelen (pcb : Option Pcb)
  | tcp_connect (pcb : Option Pcb) (addr : IPAddress) (port : Nat)
  | tcp_output (pcb : Option Pcb)
  | tcp_recved (pcb : Option Pcb) (len : Nat)
  | pcb_state (pcb : Option Pcb)
  | pbuf_free
  | dns_gethostbyname (server : String)
  | FixNetworkRouting
  | newDnsLookup (port : Int)
  | deleteDnsLookup
  | getDataPointer
  | seek (len : Int)
  | isFinished
  | onReadyToSendData (sourceEvent : TcpConnectionEvent)
  | onError (err : err_t) (tcp : Option Pcb)
  | checkSelfFree
  | deleteThis
  deriving DecidableEq, Repr

/-- Whether a logged action is a call into the transport on a handle: a send, a
queue query, a connect request, a read of the handle's state, or any other
lwIP call that takes the handle. -/
def Ev.isTransportCall : Ev → Bool
  | .tcp_arg _ _ => true
  | .tcp_sent _ _ => true
  | .tcp_recv _ _ => true
  | .tcp_err _ _ => true
  | .tcp_poll _ _ _ => true
  | .tcp_accept _ _ => true
  | .tcp_close _ => true
  | .tcp_abort _ => true
  | .tcp_write _ _ _ _ => true
  | .tcp_sndbuf _ => true
  | .tcp_sndqueuelen _ => true
  | .tcp_connect _ _ _ => true
  | .tcp_output _ => true
  | .tcp_recved _ _ => true
  | .pcb_state _ => true
  | _ => false

/-- The transport engine and the resolver, lwIP, as a parameter.  The state
`σ` is whatever lwIP remembers; `step` is the change a call makes to it, and
the other fields are the values the calls return in a given state.
`TCP_SND_QUEUELEN` is the slot ceiling of the send queue, a constant of the
lwIP configuration. -/
structure Lwip (σ : Type) where
  TCP_SND_QUEUELEN : Nat
  step : σ → Ev → σ
  tcp_new : σ → Option Pcb
  tcp_write : σ → Option Pcb → Int → Nat → err_t
  tcp_sndbuf : σ → Option Pcb → Nat
  tcp_sndqueuelen : σ → Option Pcb → Nat
  tcp_connect : σ → Option Pcb → IPAddress → Nat → err_t
  tcp_close : σ → Option Pcb → err_t
  established : σ → Option Pcb → Bool
  dns_gethostbyname : σ → String → err_t × IPAddress

/-- The world outside the object: the state of lwIP and the log of actions. -/
structure World (σ : Type) where
  net : σ
  log : List Ev

/-- A call into lwIP: it is logged and lwIP moves on. -/
def World.call {σ : Type} (w : World σ) (T : Lwip σ) (e : Ev) : World σ :=
  { net := T.step w.net e, log := w.log ++ [e] }

/-- An action that does not enter lwIP (the data source, the handlers, the
heap): it is logged only. -/
def World.note {σ : Type} (w : World σ) (e : Ev) : World σ :=
  { w with log := w.log ++ [e] }

/-! ## The connection object -/

/-- The fields of `TcpConnection`.  `sleep` and `timeOut` are `uint16_t`. -/
structure TcpConnection where
  tcp : Option Pcb
  autoSelfDestruct : Bool
  sleep : Nat
  canSend : Bool
  timeOut : Nat
  deriving DecidableEq, Repr

/-! ## The flat-buffer write, `write(const char*, int, uint8_t)` -/

/-- The body of `if (err == ERR_MEM)` in `write`: the new attempted length.
The two queue queries are made in the order of the `||`, the second only when
the first test is false. -/
def shrink {σ : Type} (T : Lwip σ) (tcp : Option Pcb) (len : Int) (w : World σ) :
    Int × World σ :=
  let w1 := w.call T (Ev.tcp_sndbuf tcp)
  if T.tcp_sndbuf w.net tcp = 0 then (1, w1)
  else
    let w2 := w1.call T (Ev.tcp_sndqueuelen tcp)
    if T.tcp_sndqueuelen w1.net tcp ≥ T.TCP_SND_QUEUELEN then (1, w2)
    else (len.tdiv 2, w2)

/-- The `do ... while ((err == ERR_MEM) && (len > 1))` loop of `write`, on
fuel: one unit per pass.  It yields the last `err`, the final `len` and the
world.  The length parameter of `tcp_write` is `u16_t`: the call narrows the
`int` length, so lwIP is handed, and the log records, `len` modulo 65536,
while the variable `len` keeps its value. -/
def writeLoop {σ : Type} (T : Lwip σ) (tcp : Option Pcb) (apiflags : Nat) :
    Nat → Int → World σ → Option (err_t × Int × World σ)
  | 0, _, _ => none
  | fuel + 1, len, w =>
    let err := T.tcp_write w.net tcp (len % 65536) apiflags
    let w1 := w.call T (Ev.tcp_write tcp (len % 65536) apiflags err)
    if err = ERR_MEM then
      let r := shrink T tcp len w1
      if r.1 > 1 then writeLoop T tcp apiflags fuel r.1 r.2
      else some (err, r.1, r.2)
    else some (err, len, w1)

/-- The method `write(const char* data, int len, uint8_t apiflags)`: the value
returned and the world afterwards.  The bytes of `data` do not steer the
code and are left out.  The loop is given `len + 1` units of fuel (for a
negative `len`, one), which `writeLoop_terminates` shows is enough. -/
def write {σ : Type} (T : Lwip σ) (c : TcpConnection) (len : Int) (apiflags : Nat)
    (w : World σ) : Option (Int × World σ) :=
  match writeLoop T c.tcp apiflags (len.toNat + 1) len w with
  | none => none
  | some (err, len1, w1) => if err = ERR_OK then some (len1, w1) else some (-1, w1)

/-! ## Small methods -/

/-- The method `close()`. -/
def close {σ : Type} (T : Lwip σ) (c : TcpConnection) (w : World σ) :
    TcpConnection × World σ :=
  match c.tcp with
  | none => (c, w)
  | some p => ({ c with tcp := none }, w.call T (Ev.tcp_arg (some p) false))

/-- The method `initialize(tcp_pcb* pcb)`. -/
def initializeConn {σ : Type} (T : Lwip σ) (c : TcpConnection) (pcb : Option Pcb)
    (w : World σ) : TcpConnection × World σ :=
  ({ c with tcp := pcb, sleep := 0, canSend := true },
    ((((w.call T (Ev.tcp_arg pcb true)).call T (Ev.tcp_sent pcb true)).call T
      (Ev.tcp_recv pcb true)).call T (Ev.tcp_err pcb true)).call T (Ev.tcp_poll pcb true 4))

/-- The constructor `TcpConnection(bool autoDestruct)`. -/
def newTcpConnection {σ : Type} (T : Lwip σ) (autoDestruct : Bool) (w : World σ) :
    TcpConnection × World σ :=
  let p := T.tcp_new w.net
  initializeConn T { tcp := none, autoSelfDestruct := autoDestruct, sleep := 0,
                     canSend := true, timeOut := 70 } p (w.call T (Ev.tcp_new p))

/-- The constructor `TcpConnection(tcp_pcb* connection, bool autoDestruct)`. -/
def newTcpConnectionOn {σ : Type} (T : Lwip σ) (connection : Option Pcb)
    (autoDestruct : Bool) (w : World σ) : TcpConnection × World σ :=
  initializeConn T { tcp := none, autoSelfDestruct := autoDestruct, sleep := 0,
                     canSend := true, timeOut := 70 } connection w

/-- The method `setTimeOut(uint16_t waitTimeOut)`. -/
def setTimeOut (c : TcpConnection) (waitTimeOut : Nat) : TcpConnection :=
  { c with timeOut := waitTimeOut % 65536 }

/-- The method `flush()`.  It reads `tcp->state` whatever `tcp` is: with the
handle absent this is a read through `NULL`, logged as `pcb_state none`. -/
def flush {σ : Type} (T : Lwip σ) (c : TcpConnection) (w : World σ) : World σ :=
  let w1 := w.call T (Ev.pcb_state c.tcp)
  if T.established w.net c.tcp then w1.call T (Ev.tcp_output c.tcp) else w1

/-- The six calls of `closeTcpConnection` that clear the argument and the
callbacks of `tpcb`: `tcp_arg`, `tcp_sent`, `tcp_recv`, `tcp_err`, `tcp_poll`
and `tcp_accept`, each with `NULL`. -/
def deregister {σ : Type} (T : Lwip σ) (tpcb : Option Pcb) (w : World σ) : World σ :=
  (((((w.call T (Ev.tcp_arg tpcb false)).call T (Ev.tcp_sent tpcb false)).call T
    (Ev.tcp_recv tpcb false)).call T (Ev.tcp_err tpcb false)).call T
    (Ev.tcp_poll tpcb false 0)).call T (Ev.tcp_accept tpcb false)

/-- The function `closeTcpConnection(tcp_pcb *tpcb)`. -/
def closeTcpConnection {σ : Type} (T : Lwip σ) (tpcb : Option Pcb) (w : World σ) :
    World σ :=
  match tpcb with
  | none => w
  | some _ =>
    let w6 := deregister T tpcb w
    let err := T.tcp_close w6.net tpcb
    let w7 := w6.call T (Ev.tcp_close tpcb)
    if err ≠ ERR_OK then w7.call T (Ev.tcp_poll tpcb true 4) else w7

/-! ## Connecting -/

/-- The method `connect(IPAddress addr, uint16_t port)`: the value returned and
the world afterwards. -/
def connectAddr {σ : Type} (T : Lwip σ) (c : TcpConnection) (addr : IPAddress)
    (port : Nat) (w : World σ) : Bool × World σ :=
  let w1 := w.note Ev.FixNetworkRouting
  let res := T.tcp_connect w1.net c.tcp addr port
  (decide (res = ERR_OK), w1.call T (Ev.tcp_connect c.tcp addr port))

/-- The method `connect(const char* server, int port)`: the value returned, the
object and the world afterwards.  Passing the `int` port on to the
numeric-address form narrows it to `uint16_t`. -/
def connectHost {σ : Type} (T : Lwip σ) (c : TcpConnection) (server : String)
    (port : Int) (w : World σ) : Bool × TcpConnection × World σ :=
  let cw : TcpConnection × World σ :=
    if c.tcp = none then
      let p := T.tcp_new w.net
      initializeConn T c p (w.call T (Ev.tcp_new p))
    else (c, w)
  let c2 : TcpConnection := { cw.1 with canSend := false }
  let w2 := cw.2.note (Ev.newDnsLookup port)
  let dnslook := T.dns_gethostbyname w2.net server
  let w3 := w2.call T (Ev.dns_gethostbyname server)
  if dnslook.1 ≠ ERR_OK then
    if dnslook.1 = ERR_INPROGRESS then (true, c2, w3)
    else (false, c2, w3.note Ev.deleteDnsLookup)
  else
    let w4 := w3.note Ev.deleteDnsLookup
    let r := connectAddr T c2 dnslook.2 (port % 65536).toNat w4
    (r.1, c2, r.2)

/-! ## The handlers of the base class

`onReadyToSendData` and `onError` only print a debug line in the base class;
the line is kept as a log entry, so that what is delivered to the
application, and when, can be read off the log. -/

/-- The method `onReadyToSendData(TcpConnectionEvent sourceEvent)`. -/
def onReadyToSendData {σ : Type} (sourceEvent : TcpConnectionEvent) (w : World σ) :
    World σ :=
  w.note (Ev.onReadyToSendData sourceEvent)

/-- The method `onError(err_t err)`, called on the object `c`. -/
def onError {σ : Type} (c : TcpConnection) (err : err_t) (w : World σ) : World σ :=
  w.note (Ev.onError err c.tcp)

/-- The method `onReceive(pbuf *buf)`. -/
def onReceive {σ : Type} (buf : Option pbuf) (w : World σ) : err_t × World σ :=
  (ERR_OK, if buf ≠ none then onReadyToSendData TcpConnectionEvent.eTCE_Received w else w)

/-- The method `onSent(uint16_t len)`; `len >= 0` holds of every `uint16_t`. -/
def onSent {σ : Type} (c : TcpConnection) (_len : Nat) (w : World σ) : err_t × World σ :=
  (ERR_OK, if c.tcp ≠ none ∧ c.canSend = true then
    onReadyToSendData TcpConnectionEvent.eTCE_Sent w else w)

/-- The method `onPoll()`. -/
def onPoll {σ : Type} (T : Lwip σ) (c : TcpConnection) (w : World σ) :
    err_t × TcpConnection × World σ :=
  if c.sleep ≥ c.timeOut ∧ c.timeOut ≠ USHRT_MAX then
    let r := close T c w
    (ERR_OK, r.1, r.2)
  else
    (ERR_OK, c, if c.tcp ≠ none ∧ c.canSend = true then
      onReadyToSendData TcpConnectionEvent.eTCE_Poll w else w)

/-- The method `onConnected(err_t err)`. -/
def onConnected {σ : Type} (T : Lwip σ) (c : TcpConnection) (err : err_t) (w : World σ) :
    err_t × TcpConnection × World σ :=
  let c1 : TcpConnection := { c with canSend := true }
  if err = ERR_OK then (ERR_OK, c1, onReadyToSendData TcpConnectionEvent.eTCE_Connected w)
  else
    let r := close T c1 w
    (ERR_OK, r.1, r.2)

/-- Modelled from the spec: `checkSelfFree()` is declared in `TcpConnection.h`,
which is not among the sources.  The spec: after every dispatched event
returns, if `autoDestruct` is set and `handle` is absent, the connection
object is destroyed.  Destroying runs the destructor, which calls `close()`.
The result is the object, or `none` once it is destroyed. -/
def checkSelfFree {σ : Type} (T : Lwip σ) (c : TcpConnection) (w : World σ) :
    Option TcpConnection × World σ :=
  let w1 := w.note Ev.checkSelfFree
  if c.tcp = none ∧ c.autoSelfDestruct = true then
    (none, (close T c (w1.note Ev.deleteThis)).2)
  else (some c, w1)

/-! ## The streaming write, `write(IDataSourceStream*)` -/

/-- The data source stream, `IDataSourceStream`, as a parameter: `τ` is its
state, `getDataPointer` the length it reports as available, `seek` the move
of its cursor, `isFinished` its end test. -/
structure IDataSourceStream (τ : Type) where
  getDataPointer : τ → Int
  seek : τ → Int → τ
  isFinished : τ → Bool

/-- The variables of `write(IDataSourceStream*)` that live across a pass of
the inner loop: the source, `curPart`, `total`, `repeat` and the world. -/
structure StreamVars (σ τ : Type) where
  stream : τ
  curPart : Int
  total : Int
  repeat_ : Bool
  world : World σ

/-- The inner `do ... while (repeat && curPart < NETWORK_SEND_BUFFER_SIZE)` loop
of `write(IDataSourceStream*)`.  The first argument is `26 - pushCount`: at
zero `pushCount > 25` holds and the loop breaks.  `continue` goes to the loop
test with `repeat` as it was.  `NETWORK_SEND_BUFFER_SIZE` is a constant of the
configuration, taken as the parameter `nsbs`. -/
def joinFragments {σ τ : Type} (T : Lwip σ) (S : IDataSourceStream τ) (c : TcpConnection)
    (nsbs : Int) : Nat → StreamVars σ τ → Option (StreamVars σ τ)
  | 0, v => some v
  | left + 1, v =>
    let available := S.getDataPointer v.stream
    let w1 := v.world.note Ev.getDataPointer
    if available ≤ 0 then
      let v1 : StreamVars σ τ := { v with world := w1 }
      if v1.repeat_ = true ∧ v1.curPart < nsbs then joinFragments T S c nsbs left v1
      else some v1
    else
      let len := min available 4096
      match write T c len (TCP_WRITE_FLAG_COPY ||| TCP_WRITE_FLAG_MORE) w1 with
      | none => none
      | some (written, w2) =>
        let curPart := v.curPart + written
        let total := v.total + written
        let stream := S.seek v.stream (max written 0)
        let w3 := w2.note (Ev.seek (max written 0))
        let rw : Bool × World σ :=
          if len > 0 ∧ written = len then (!S.isFinished stream, w3.note Ev.isFinished)
          else (false, w3)
        let v1 : StreamVars σ τ :=
          { stream := stream, curPart := curPart, total := total, repeat_ := rw.1, world := rw.2 }
        if v1.repeat_ = true ∧ v1.curPart < nsbs then joinFragments T S c nsbs left v1
        else some v1

/-- The outer `do ... while (repeat && space)` loop of
`write(IDataSourceStream*)`, on fuel: one unit per pass.  It yields the
source, `total` and the world. -/
def writeStreamLoop {σ τ : Type} (T : Lwip σ) (S : IDataSourceStream τ) (c : TcpConnection)
    (nsbs : Int) : Nat → τ → Int → Bool → World σ → Option (τ × Int × World σ)
  | 0, _, _, _, _ => none
  | fuel + 1, stream, total, rep, w =>
    let space := decide (T.tcp_sndqueuelen w.net c.tcp < T.TCP_SND_QUEUELEN)
    let w1 := w.call T (Ev.tcp_sndqueuelen c.tcp)
    if space = false then some (stream, total, w1)
    else
      match joinFragments T S c nsbs 26
        { stream := stream, curPart := 0, total := total, repeat_ := rep, world := w1 } with
      | none => none
      | some v =>
        let space2 := decide (T.tcp_sndqueuelen v.world.net c.tcp < T.TCP_SND_QUEUELEN)
        let w2 := v.world.call T (Ev.tcp_sndqueuelen c.tcp)
        if v.repeat_ = true ∧ space2 = true then
          writeStreamLoop T S c nsbs fuel v.stream v.total v.repeat_ w2
        else some (v.stream, v.total, w2)

/-- The method `write(IDataSourceStream* stream)`: the value returned, the
source and the world afterwards.  `repeat0` is the value the uninitialised
`repeat` happens to hold on entry; `fuel` bounds the passes of the outer
loop. -/
def writeStream {σ τ : Type} (T : Lwip σ) (S : IDataSourceStream τ) (c : TcpConnection)
    (nsbs : Int) (fuel : Nat) (repeat0 : Bool) (stream : τ) (w : World σ) :
    Option (Int × τ × World σ) :=
  match writeStreamLoop T S c nsbs fuel stream 0 repeat0 w with
  | none => none
  | some (stream1, total, w1) => some (total, stream1, flush T c w1)

/-! ## The dispatch entry points

The engine calls them with the argument registered by `tcp_arg`: the object
(`some`) or `NULL` (`none`).  `con` in the result is the object afterwards,
`none` when there is none (there was none, or it was destroyed). -/

/-- What a status-returning entry point leaves behind. -/
structure Dispatch (σ : Type) where
  ret : err_t
  con : Option TcpConnection
  world : World σ

/-- The entry point `staticOnConnected(void *arg, tcp_pcb *tcp, err_t err)`. -/
def staticOnConnected {σ : Type} (T : Lwip σ) (arg : Option TcpConnection)
    (tcp : Option Pcb) (err : err_t) (w : World σ) : Dispatch σ :=
  match arg with
  | none => { ret := ERR_ABRT, con := none, world := w.call T (Ev.tcp_abort tcp) }
  | some con =>
    let r := onConnected T con err w
    let f := checkSelfFree T r.2.1 r.2.2
    { ret := r.1, con := f.1, world := f.2 }

/-- The entry point
`staticOnReceive(void *arg, tcp_pcb *tcp, pbuf *p, err_t err)`. -/
def staticOnReceive {σ : Type} (T : Lwip σ) (arg : Option TcpConnection)
    (tcp : Option Pcb) (p : Option pbuf) (err : err_t) (w : World σ) : Dispatch σ :=
  match arg with
  | none =>
    let w1 := match p with
      | some b => (w.call T (Ev.tcp_recved tcp b.tot_len)).call T Ev.pbuf_free
      | none => w
    { ret := ERR_OK, con := none, world := closeTcpConnection T tcp w1 }
  | some con0 =>
    let con : TcpConnection := { con0 with sleep := 0 }
    if err ≠ ERR_OK then
      let w1 := if p ≠ none then w.call T Ev.pbuf_free else w
      let w2 := closeTcpConnection T tcp w1
      let con1 : TcpConnection := { con with tcp := none }
      { ret := err, con := some con1, world := onError con1 err w2 }
    else
      let w1 := match p with
        | some b => w.call T (Ev.tcp_recved tcp b.tot_len)
        | none => w
      let r := onReceive p w1
      let cw : TcpConnection × World σ := match p with
        | some _ => (con, r.2.call T Ev.pbuf_free)
        | none =>
          let cl := close T con r.2
          (cl.1, closeTcpConnection T tcp cl.2)
      let f := checkSelfFree T cw.1 cw.2
      { ret := r.1, con := f.1, world := f.2 }

/-- The entry point `staticOnSent(void *arg, tcp_pcb *tcp, uint16_t len)`. -/
def staticOnSent {σ : Type} (T : Lwip σ) (arg : Option TcpConnection)
    (_tcp : Option Pcb) (len : Nat) (w : World σ) : Dispatch σ :=
  match arg with
  | none => { ret := ERR_OK, con := none, world := w }
  | some con0 =>
    let con : TcpConnection := { con0 with sleep := 0 }
    let r := onSent con len w
    let f := checkSelfFree T con r.2
    { ret := r.1, con := f.1, world := f.2 }

/-- The entry point `staticOnPoll(void *arg, tcp_pcb *tcp)`; `sleep++` is on a
`uint16_t`. -/
def staticOnPoll {σ : Type} (T : Lwip σ) (arg : Option TcpConnection)
    (tcp : Option Pcb) (w : World σ) : Dispatch σ :=
  match arg with
  | none => { ret := ERR_OK, con := none, world := closeTcpConnection T tcp w }
  | some con0 =>
    let con : TcpConnection := { con0 with sleep := (con0.sleep + 1) % 65536 }
    let r := onPoll T con w
    let f := checkSelfFree T r.2.1 r.2.2
    { ret := r.1, con := f.1, world := f.2 }

/-- The entry point `staticOnError(void *arg, err_t err)`: the object afterwards
(`none` when there is none) and the world. -/
def staticOnError {σ : Type} (T : Lwip σ) (arg : Option TcpConnection) (err : err_t)
    (w : World σ) : Option TcpConnection × World σ :=
  match arg with
  | none => (none, w)
  | some con0 =>
    let con : TcpConnection := { con0 with tcp := none }
    checkSelfFree T con (onError con err w)

/-- A run of `n` consecutive idle-poll dispatches on the handle `tcp`, as the
engine delivers them: each with the argument registered on the handle, which
is the object while its handle is bound and `NULL` once `close()` has cleared
it or the object is gone. -/
def idlePolls {σ : Type} (T : Lwip σ) (tcp : Option Pcb) :
    Nat → Option TcpConnection → World σ → Option TcpConnection × World σ
  | 0, oc, w => (oc, w)
  | n + 1, oc, w =>
    let r := idlePolls T tcp n oc w
    match r.1 with
    | some c =>
      if c.tcp ≠ none then
        let d := staticOnPoll T (some c) tcp r.2
        (d.con, d.world)
      else (some c, (staticOnPoll T none tcp r.2).world)
    | none => (none, (staticOnPoll T none tcp r.2).world)

/-! ## Reading the log -/

/-- The send attempts in a log, in order: the length passed to `tcp_write` and
the status it returned. -/
def sends : List Ev → List (Int × err_t)
  | [] => []
  | Ev.tcp_write _ len _ res :: l => (len, res) :: sends l
  | _ :: l => sends l

/-- The number of bytes the transport accepted: the lengths of the send
attempts that returned `ERR_OK`, added up. -/
def acceptedBytes (l : List Ev) : Int :=
  ((sends l).map (fun p => if p.2 = ERR_OK then p.1 else 0)).sum

/-- The total by which the cursor of the source was advanced: the arguments
of the `seek` calls, added up. -/
def seekTotal : List Ev → Int
  | [] => 0
  | Ev.seek n :: l => n + seekTotal l
  | _ :: l => seekTotal l

/-- The send attempts and the cursor moves of a log, nothing else. -/
def ioTrace : List Ev → List Ev
  | [] => []
  | Ev.tcp_write pcb len fl res :: l => Ev.tcp_write pcb len fl res :: ioTrace l
  | Ev.seek n :: l => Ev.seek n :: ioTrace l
  | _ :: l => ioTrace l

/-- The trace of sending chunks of the given lengths in full, each followed by
a move of the cursor by the same length. -/
def chunkTrace (pcb : Option Pcb) (fl : Nat) : List Int → List Ev
  | [] => []
  | n :: l => Ev.tcp_write pcb n fl ERR_OK :: Ev.seek n :: chunkTrace pcb fl l

/-- The calls into the transport on a handle that a log holds. -/
def transportCalls (l : List Ev) : List Ev :=
  l.filter Ev.isTransportCall

/-! ## Transports, sources and objects used as concrete inputs -/

/-- A transport whose send accepts an attempt exactly when its length is at
most `C` and answers `ERR_MEM` otherwise; its window is `C` bytes and its
queue holds no segment (slot ceiling 8), so the queue-full test of `write`
is true exactly when `C = 0`. -/
def capacityLwip (C : Nat) : Lwip Unit where
  TCP_SND_QUEUELEN := 8
  step := fun s _ => s
  tcp_new := fun _ => some 1
  tcp_write := fun _ _ len _ => if len ≤ (C : Int) then ERR_OK else ERR_MEM
  tcp_sndbuf := fun _ _ => C
  tcp_sndqueuelen := fun _ _ => 0
  tcp_connect := fun _ _ _ _ => ERR_OK
  tcp_close := fun _ _ => ERR_OK
  established := fun _ _ => true
  dns_gethostbyname := fun _ _ => (ERR_OK, 7)

/-- A transport with a send buffer of a given number of free bytes (its
state): a send is accepted when it fits and then uses up the room, and is
answered `ERR_MEM` otherwise.  Its resolver fails with `ERR_VAL` (-6). -/
def bufferLwip : Lwip Nat where
  TCP_SND_QUEUELEN := 8
  step := fun s e => match e with
    | Ev.tcp_write _ len _ res => if res = ERR_OK then s - len.toNat else s
    | _ => s
  tcp_new := fun _ => some 1
  tcp_write := fun s _ len _ => if len ≤ (s : Int) then ERR_OK else ERR_MEM
  tcp_sndbuf := fun s _ => s
  tcp_sndqueuelen := fun _ _ => 0
  tcp_connect := fun _ _ _ _ => ERR_OK
  tcp_close := fun _ _ => ERR_OK
  established := fun _ _ => true
  dns_gethostbyname := fun _ _ => (-6, 0)

/-- A transport with unlimited room: every send is accepted in full and the
queue holds no segment (slot ceiling 8). -/
def roomyLwip : Lwip Unit where
  TCP_SND_QUEUELEN := 8
  step := fun s _ => s
  tcp_new := fun _ => some 1
  tcp_write := fun _ _ _ _ => ERR_OK
  tcp_sndbuf := fun _ _ => 65535
  tcp_sndqueuelen := fun _ _ => 0
  tcp_connect := fun _ _ _ _ => ERR_OK
  tcp_close := fun _ _ => ERR_OK
  established := fun _ _ => true
  dns_gethostbyname := fun _ _ => (ERR_OK, 7)

/-- A source of `N` bytes in one contiguous piece; its state is the cursor. -/
def plainSource (N : Nat) : IDataSourceStream Nat where
  getDataPointer := fun p => (N : Int) - p
  seek := fun p n => p + n.toNat
  isFinished := fun p => decide (N ≤ p)

/-- An object with the live handle 1, self-destruction on, timeout 3. -/
def liveCon : TcpConnection :=
  { tcp := some 1, autoSelfDestruct := true, sleep := 0, canSend := true, timeOut := 3 }

/-- The object `liveCon` after `close()`: its handle is absent. -/
def closedCon : TcpConnection :=
  { liveCon with tcp := none }

/-- A stateless world with an empty log. -/
def emptyWorld : World Unit :=
  { net := (), log := [] }

/-- A well-behaved source of total size `N`, with cursor `pos`: it is
exhausted exactly when the cursor is at `N`; while it is not, it yields a
positive length that does not run past the end; and a move by a length it
has yielded advances the cursor by that length. -/
def WellBehaved {τ : Type} (S : IDataSourceStream τ) (pos : τ → Nat) (N : Nat) : Prop :=
  (∀ t, S.isFinished t = true ↔ pos t = N) ∧
  (∀ t, pos t < N → 0 < S.getDataPointer t ∧ S.getDataPointer t ≤ (N : Int) - pos t) ∧
  (∀ t n, 0 < n → n ≤ S.getDataPointer t → pos (S.seek t n) = pos t + n.toNat)

/-- The variables of the inner loop after a pass in which the chunk pulled
from the source was accepted in full: the state that `joinFragments` reaches
then, written out for the proofs. -/
def pushedInFull {σ τ : Type} (T : Lwip σ) (S : IDataSourceStream τ) (c : TcpConnection)
    (v : StreamVars σ τ) : StreamVars σ τ :=
  let len := min (S.getDataPointer v.stream) 4096
  { stream := S.seek v.stream len
    curPart := v.curPart + len
    total := v.total + len
    repeat_ := !S.isFinished (S.seek v.stream len)
    world := ((((v.world.note Ev.getDataPointer).call T
      (Ev.tcp_write c.tcp len (TCP_WRITE_FLAG_COPY ||| TCP_WRITE_FLAG_MORE) ERR_OK)).note
      (Ev.seek len)).note Ev.isFinished) }

/-- The ready-to-send notification with the cause `Connected`. -/
def connectedEvent : Ev :=
  Ev.onReadyToSendData TcpConnectionEvent.eTCE_Connected

/-- The calls `closeTcpConnection` makes on a handle, in order, up to and
including its close attempt. -/
def teardownCalls (tpcb : Option Pcb) : List Ev :=
  [Ev.tcp_arg tpcb false, Ev.tcp_sent tpcb false, Ev.tcp_recv tpcb false,
   Ev.tcp_err tpcb false, Ev.tcp_poll tpcb false 0, Ev.tcp_accept tpcb false,
   Ev.tcp_close tpcb]

/-- A transport with unlimited room whose resolver answers every lookup with
the status `e` and the address 7. -/
def resolverLwip (e : err_t) : Lwip Unit where
  TCP_SND_QUEUELEN := 8
  step := fun s _ => s
  tcp_new := fun _ => some 1
  tcp_write := fun _ _ _ _ => ERR_OK
  tcp_sndbuf := fun _ _ => 65535
  tcp_sndqueuelen := fun _ _ => 0
  tcp_connect := fun _ _ _ _ => ERR_OK
  tcp_close := fun _ _ => ERR_OK
  established := fun _ _ => true
  dns_gethostbyname := fun _ _ => (e, 7)

/-- A source that yields 3 bytes at its start and after that reports no
byte available without ever reporting that it is finished; its state is
the cursor. -/
def stallingSource : IDataSourceStream Nat where
  getDataPointer := fun p => if p = 0 then 3 else 0
  seek := fun p n => p + n.toNat
  isFinished := fun _ => false

theorem call_log {σ : Type} (w : World σ) (T : Lwip σ) (e : Ev) :
    (w.call T e).log = w.log ++ [e] := rfl

theorem note_log {σ : Type} (w : World σ) (e : Ev) : (w.note e).log = w.log ++ [e] := rfl

theorem tdiv_two_toNat_lt (len : Int) (h : 1 < len.tdiv 2) :
    (len.tdiv 2).toNat < len.toNat := by
  rcases Int.lt_or_le len 0 with hneg | hpos
  · exfalso
    obtain ⟨n, rfl⟩ := Int.eq_negSucc_of_lt_zero hneg
    have h2 : (Int.negSucc n).tdiv 2 = -(((n + 1) / 2 : Nat) : Int) := rfl
    rw [h2] at h
    omega
  · rw [Int.tdiv_eq_ediv hpos (by decide)] at h ⊢
    omega

theorem shrink_fst {σ : Type} (T : Lwip σ) (tcp : Option Pcb) (len : Int) (w : World σ) :
    (shrink T tcp len w).1 = 1 ∨ (shrink T tcp len w).1 = len.tdiv 2 := by
  unfold shrink
  simp only
  split
  · exact Or.inl rfl
  · split
    · exact Or.inl rfl
    · exact Or.inr rfl

/-- The loop of `write` ends: `len + 1` passes are always enough. -/
theorem writeLoop_terminates {σ : Type} (T : Lwip σ) (tcp : Option Pcb) (fl : Nat) :
    ∀ (fuel : Nat) (len : Int) (w : World σ), len.toNat < fuel →
      (writeLoop T tcp fl fuel len w).isSome = true := by
  intro fuel
  induction fuel with
  | zero => intro len w h; omega
  | succ n ih =>
    intro len w h
    unfold writeLoop
    simp only
    split
    · split
      · rename_i hgt
        apply ih
        rcases shrink_fst T tcp len (w.call T (Ev.tcp_write tcp (len % 65536) fl (T.tcp_write w.net tcp (len % 65536) fl)))
          with h1 | h1
        · rw [h1] at hgt; omega
        · rw [h1] at hgt ⊢
          have := tdiv_two_toNat_lt len hgt
          omega
      · rfl
    · rfl

theorem sends_append (a b : List Ev) : sends (a ++ b) = sends a ++ sends b := by
  induction a with
  | nil => rfl
  | cons e l ih => cases e <;> simp [sends, ih]

theorem shrink_sends {σ : Type} (T : Lwip σ) (tcp : Option Pcb) (len : Int) (w : World σ) :
    sends (shrink T tcp len w).2.log = sends w.log := by
  unfold shrink
  simp only
  split
  · simp [call_log, sends_append, sends]
  · split <;> simp [call_log, sends_append, sends]

/-! ## C1: operations on an object whose handle is absent -/

/-- C1, as the code behaves: on an object whose handle is absent (`closedCon`,
an object after `close()`), the flat-buffer write still calls `tcp_write`
with the `NULL` handle, the streaming write queries the queue, sends, and
reads `tcp->state` through `NULL` in its final flush, and the numeric-address
connect issues `tcp_connect` on `NULL`.  The claim asks for no transport
call at all. -/
theorem absent_handle_still_calls_transport :
    closedCon.tcp = none ∧
    (write (capacityLwip 5) closedCon 1 0 emptyWorld).map (fun r => transportCalls r.2.log)
      = some [Ev.tcp_write none 1 0 ERR_OK] ∧
    (writeStream (capacityLwip 5) (plainSource 2) closedCon 1024 1 false 0 emptyWorld).map
        (fun r => transportCalls r.2.2.log)
      = some [Ev.tcp_sndqueuelen none, Ev.tcp_write none 2 3 ERR_OK, Ev.tcp_sndqueuelen none,
          Ev.pcb_state none, Ev.tcp_output none] ∧
    transportCalls (connectAddr (capacityLwip 5) closedCon 9 80 emptyWorld).2.log
      = [Ev.tcp_connect none 9 80] := by
  refine ⟨rfl, ?_, ?_, ?_⟩
  · decide
  · decide
  · decide

/-! ## C2: the flat-buffer write against a queue of capacity `C` -/

theorem writeLoop_capacity {σ : Type} (T : Lwip σ) (tcp : Option Pcb) (fl : Nat) (C : Nat)
    (hT : ∀ s len, T.tcp_write s tcp len fl = if len ≤ (C : Int) then ERR_OK else ERR_MEM) :
    ∀ (fuel : Nat) (len : Int) (w : World σ), 0 ≤ len → len ≤ 65535 → len.toNat < fuel →
      ∃ err len1 w1, writeLoop T tcp fl fuel len w = some (err, len1, w1) ∧
        (err = ERR_OK → len1 ≤ (C : Int)) := by
  intro fuel
  induction fuel with
  | zero => intro len w _ _ h; omega
  | succ n ih =>
    intro len w h0 h1 h
    unfold writeLoop
    simp only [Int.emod_eq_of_lt h0 (show len < 65536 by omega)]
    by_cases hle : len ≤ (C : Int)
    · have herr : T.tcp_write w.net tcp len fl = ERR_OK := by rw [hT]; simp [hle]
      rw [herr, if_neg (by decide)]
      exact ⟨ERR_OK, len, _, rfl, fun _ => hle⟩
    · have herr : T.tcp_write w.net tcp len fl = ERR_MEM := by rw [hT]; simp [hle]
      rw [herr]
      simp only [if_true]
      split
      · rename_i hgt
        rcases shrink_fst T tcp len (w.call T (Ev.tcp_write tcp len fl ERR_MEM)) with h2 | h2
        · rw [h2] at hgt; omega
        · have hlt := tdiv_two_toNat_lt len (by rw [h2] at hgt; exact hgt)
          have hdiv : len.tdiv 2 = len / 2 := Int.tdiv_eq_ediv h0 (by decide)
          apply ih
          · rw [h2, hdiv]; omega
          · rw [h2, hdiv]; omega
          · rw [h2]; omega
      · exact ⟨ERR_MEM, _, _, rfl, fun h3 => by simp [ERR_OK, ERR_MEM] at h3⟩

/-- A run of the loop of `write` makes at most one send attempt per unit of
fuel. -/
theorem writeLoop_attempts {σ : Type} (T : Lwip σ) (tcp : Option Pcb) (fl : Nat) :
    ∀ (fuel : Nat) (len : Int) (w : World σ) (r : err_t × Int × World σ),
      writeLoop T tcp fl fuel len w = some r →
      (sends r.2.2.log).length ≤ (sends w.log).length + fuel := by
  intro fuel
  induction fuel with
  | zero => intro len w r h; simp [writeLoop] at h
  | succ n ih =>
    intro len w r h
    unfold writeLoop at h
    simp only at h
    have hcall : ∀ e, (sends (w.call T (Ev.tcp_write tcp (len % 65536) fl e)).log).length
        = (sends w.log).length + 1 := by
      intro e
      rw [call_log, sends_append]
      simp [sends]
    split at h
    · split at h
      · have := ih _ _ _ h
        rw [shrink_sends, hcall] at this
        omega
      · simp only [Option.some.injEq] at h
        subst h
        simp only [shrink_sends, hcall]
        omega
    · simp only [Option.some.injEq] at h
      subst h
      simp only [hcall]
      omega

/-- Within the range of `u16_t`: when the transport accepts a send exactly
when its length is at most `C` and answers out-of-memory otherwise, then for
every requested length `L` with `C < L ≤ 65535` the flat-buffer write returns,
after at most `L + 1` send attempts, and the value returned is at most `C` (so
less than `L`).  This holds whatever the queue-full test answers. -/
theorem write_capacity_bound {σ : Type} (T : Lwip σ) (c : TcpConnection) (C : Nat) (L : Int)
    (fl : Nat) (w : World σ)
    (hT : ∀ s len, T.tcp_write s c.tcp len fl = if len ≤ (C : Int) then ERR_OK else ERR_MEM)
    (hL : (C : Int) < L) (hR : L ≤ 65535) :
    ∃ v w1, write T c L fl w = some (v, w1) ∧ v ≤ (C : Int) ∧ v < L ∧
      (sends w1.log).length ≤ (sends w.log).length + (L.toNat + 1) := by
  obtain ⟨err, len1, w1, h, hb⟩ :=
    writeLoop_capacity T c.tcp fl C hT (L.toNat + 1) L w (by omega) hR (Nat.lt_succ_self _)
  have hn := writeLoop_attempts T c.tcp fl _ _ _ _ h
  unfold write
  rw [h]
  by_cases he : err = ERR_OK
  · have := hb he
    exact ⟨len1, w1, by simp [he], this, by omega, hn⟩
  · exact ⟨-1, w1, by simp [he], by omega, by omega, hn⟩

/-- The bound within the range of `u16_t` at a concrete input: writing length 1
against a full queue (`C = 0`) returns, with a non-positive result. -/
theorem write_capacity_bound_witness :
    ∃ v w1, write (capacityLwip 0) liveCon 1 0 emptyWorld = some (v, w1) ∧
      v ≤ ((0 : Nat) : Int) ∧ v < 1 ∧
      (sends w1.log).length ≤ (sends emptyWorld.log).length + ((1 : Int).toNat + 1) :=
  write_capacity_bound (capacityLwip 0) liveCon 0 1 0 emptyWorld (fun _ _ => rfl) (by decide)
    (by decide)

/-- C2, as the code behaves: against a transport that accepts a send exactly
when its length is at most `C = 5`, `write` of length 65541 makes a single
send, of the 5 bytes that the narrowing to `u16_t` leaves of the length, has
it accepted, and returns 65541, which is more than `C`; likewise with
`C = 2920` and length 66536 it sends 1000 bytes and returns 66536. -/
theorem write_beyond_u16_exceeds_capacity :
    (write (capacityLwip 5) liveCon 65541 0 emptyWorld).map (fun r => (r.1, sends r.2.log))
      = some (65541, [(5, ERR_OK)]) ∧
    (write (capacityLwip 2920) liveCon 66536 0 emptyWorld).map (fun r => (r.1, sends r.2.log))
      = some (66536, [(1000, ERR_OK)]) := by
  constructor
  · decide
  · decide

/-! ## C3: how far the flat-buffer write shrinks its attempts -/

theorem shrink_not_full {σ : Type} (T : Lwip σ) (tcp : Option Pcb) (len : Int) (w : World σ)
    (hq : ∀ s, T.tcp_sndbuf s tcp ≠ 0 ∧ T.tcp_sndqueuelen s tcp < T.TCP_SND_QUEUELEN) :
    (shrink T tcp len w).1 = len.tdiv 2 := by
  unfold shrink
  simp only
  rw [if_neg (hq _).1, if_neg (by have := (hq (w.call T (Ev.tcp_sndbuf tcp)).net).2; omega)]

/-- The send attempts of one run of the loop of `write` from a length within
the range of `u16_t`: every attempt but the last is answered out-of-memory,
the first has the requested length, every later one is half the one before
and at least 2, and when the run ends on out-of-memory the length left is at
most 1, being half the last attempt if the queue-full test never holds. -/
theorem writeLoop_sends {σ : Type} (T : Lwip σ) (tcp : Option Pcb) (fl : Nat) :
    ∀ (fuel : Nat) (len : Int) (w : World σ) (err : err_t) (len1 : Int) (w1 : World σ),
      0 ≤ len → len ≤ 65535 →
      writeLoop T tcp fl fuel len w = some (err, len1, w1) →
      ∃ (pre : List Int) (last : Int),
        sends w1.log = sends w.log ++ (pre.map (fun l => (l, ERR_MEM)) ++ [(last, err)]) ∧
        (pre ++ [last]).head? = some len ∧
        List.Chain' (fun a b : Int => b = a / 2 ∧ 2 ≤ b) (pre ++ [last]) ∧
        (∀ l ∈ (pre ++ [last]).tail, 2 ≤ l) ∧
        (err = ERR_MEM → len1 ≤ 1 ∧
          ((∀ s, T.tcp_sndbuf s tcp ≠ 0 ∧ T.tcp_sndqueuelen s tcp < T.TCP_SND_QUEUELEN) →
            last / 2 ≤ 1)) ∧
        (err ≠ ERR_MEM → len1 = last) := by
  intro fuel
  induction fuel with
  | zero => intro len w err len1 w1 _ _ h; simp [writeLoop] at h
  | succ n ih =>
    intro len w err len1 w1 h0 h1 h
    unfold writeLoop at h
    simp only [Int.emod_eq_of_lt h0 (show len < 65536 by omega)] at h
    have hdiv : len.tdiv 2 = len / 2 := Int.tdiv_eq_ediv h0 (by decide)
    split at h
    · rename_i hmem
      split at h
      · rename_i hgt
        have hr : (shrink T tcp len
            (w.call T (Ev.tcp_write tcp len fl (T.tcp_write w.net tcp len fl)))).1 = len / 2 := by
          rcases shrink_fst T tcp len
            (w.call T (Ev.tcp_write tcp len fl (T.tcp_write w.net tcp len fl))) with h2 | h2
          · rw [h2] at hgt; omega
          · rw [h2, hdiv]
        rw [hr] at h hgt
        obtain ⟨pre, last, hs, hhead, hchain, htail, hm, hn⟩ :=
          ih _ _ _ _ _ (by omega) (by omega) h
        refine ⟨len :: pre, last, ?_, by simp, ?_, ?_, hm, hn⟩
        · rw [hs, shrink_sends, call_log, sends_append, hmem]
          simp [sends]
        · rw [List.cons_append, List.chain'_cons']
          refine ⟨?_, hchain⟩
          intro y hy
          rw [hhead] at hy
          simp only [Option.mem_def, Option.some.injEq] at hy
          subst hy
          exact ⟨rfl, by omega⟩
        · intro l hl
          rw [List.cons_append, List.tail_cons] at hl
          cases hpre : pre with
          | nil =>
            rw [hpre] at hl hhead
            simp only [List.nil_append, List.mem_singleton] at hl
            simp only [List.nil_append, List.head?_cons, Option.some.injEq] at hhead
            omega
          | cons a t =>
            rw [hpre] at hl hhead htail
            simp only [List.cons_append, List.head?_cons, Option.some.injEq] at hhead
            simp only [List.cons_append, List.tail_cons] at htail
            rcases List.mem_cons.1 hl with hl | hl
            · omega
            · exact htail l hl
      · rename_i hle
        simp only [Option.some.injEq, Prod.mk.injEq] at h
        obtain ⟨he, hl, hw⟩ := h
        subst he hl hw
        refine ⟨[], len, ?_, rfl, List.chain'_singleton _, by simp, fun _ => ⟨by omega, ?_⟩,
          fun hne => absurd hmem hne⟩
        · rw [shrink_sends, call_log, sends_append]
          simp [sends]
        · intro hq
          rw [shrink_not_full T tcp len _ hq, hdiv] at hle
          omega
    · rename_i hmem
      simp only [Option.some.injEq, Prod.mk.injEq] at h
      obtain ⟨he, hl, hw⟩ := h
      subst he hl hw
      refine ⟨[], len, ?_, rfl, List.chain'_singleton _, by simp,
        fun h3 => absurd h3 hmem, fun _ => rfl⟩
      rw [call_log, sends_append]
      simp [sends]

/-- C4, as the code behaves: with 4096 free bytes in the send buffer and a
source of 8192 bytes, the first chunk of 4096 is accepted and the second is
refused; `write(stream)` returns 4095, while the transport accepted 4096
bytes and the cursor was advanced by 4096.  With no room at all and a
source of 5 bytes it returns -1, while nothing was accepted and the cursor
did not move.  The refused write's -1 is added to `total`. -/
theorem stream_write_counts_refused_write :
    (writeStream bufferLwip (plainSource 8192) liveCon 1024 2 false 0
        { net := 4096, log := [] }).map
      (fun r => (r.1, acceptedBytes r.2.2.log, seekTotal r.2.2.log, r.2.1))
      = some (4095, 4096, 4096, 4096) ∧
    (writeStream bufferLwip (plainSource 5) liveCon 1024 1 false 0
        { net := 0, log := [] }).map
      (fun r => (r.1, acceptedBytes r.2.2.log, seekTotal r.2.2.log, r.2.1))
      = some (-1, 0, 0, 0) := by
  constructor
  · decide
  · decide

/-! ## C5: draining a well-behaved source against unlimited capacity -/

theorem ioTrace_append (a b : List Ev) : ioTrace (a ++ b) = ioTrace a ++ ioTrace b := by
  induction a with
  | nil => rfl
  | cons e l ih => cases e <;> simp [ioTrace, ih]

theorem chunkTrace_append (pcb : Option Pcb) (fl : Nat) (a b : List Int) :
    chunkTrace pcb fl (a ++ b) = chunkTrace pcb fl a ++ chunkTrace pcb fl b := by
  induction a with
  | nil => rfl
  | cons n l ih => simp [chunkTrace, ih]

/-- A flat write that the transport accepts at once returns the requested
length after a single send. -/
theorem write_accepted {σ : Type} (T : Lwip σ) (c : TcpConnection) (len : Int) (fl : Nat)
    (w : World σ) (h0 : 0 ≤ len) (h1 : len < 65536)
    (h : T.tcp_write w.net c.tcp len fl = ERR_OK) :
    write T c len fl w = some (len, w.call T (Ev.tcp_write c.tcp len fl ERR_OK)) := by
  unfold write writeLoop
  simp only [Int.emod_eq_of_lt h0 h1, h]
  rw [if_neg (by decide)]
  simp

theorem joinFragments_accepted {σ τ : Type} (T : Lwip σ) (S : IDataSourceStream τ)
    (c : TcpConnection) (nsbs : Int) (left : Nat) (v : StreamVars σ τ)
    (hacc : ∀ s len fl, T.tcp_write s c.tcp len fl = ERR_OK)
    (hav : 0 < S.getDataPointer v.stream) :
    joinFragments T S c nsbs (left + 1) v =
      if (pushedInFull T S c v).repeat_ = true ∧ (pushedInFull T S c v).curPart < nsbs then
        joinFragments T S c nsbs left (pushedInFull T S c v)
      else some (pushedInFull T S c v) := by
  have hlen : 0 < min (S.getDataPointer v.stream) 4096 := by omega
  have hmax : max (min (S.getDataPointer v.stream) 4096) 0 = min (S.getDataPointer v.stream) 4096 := by
    omega
  rw [joinFragments]
  simp only
  rw [if_neg (by omega), write_accepted T c _ _ _ (by omega) (by omega) (hacc _ _ _)]
  simp only [hmax, hlen, true_and, if_true]
  rfl

theorem pushedInFull_facts {σ τ : Type} (T : Lwip σ) (S : IDataSourceStream τ)
    (c : TcpConnection) (pos : τ → Nat) (N : Nat) (hS : WellBehaved S pos N)
    (v : StreamVars σ τ) (hp : pos v.stream < N) :
    ∃ len : Int, 0 < len ∧ len ≤ 4096 ∧
      (pos (pushedInFull T S c v).stream : Int) = pos v.stream + len ∧
      pos (pushedInFull T S c v).stream ≤ N ∧
      (pushedInFull T S c v).total = v.total + len ∧
      (pushedInFull T S c v).repeat_ = decide (pos (pushedInFull T S c v).stream < N) ∧
      ioTrace (pushedInFull T S c v).world.log = ioTrace v.world.log ++
        chunkTrace c.tcp (TCP_WRITE_FLAG_COPY ||| TCP_WRITE_FLAG_MORE) [len] := by
  obtain ⟨hfin, hav, hseek⟩ := hS
  obtain ⟨ha0, ha1⟩ := hav v.stream hp
  have hlen0 : 0 < min (S.getDataPointer v.stream) 4096 := by omega
  have hpos := hseek v.stream (min (S.getDataPointer v.stream) 4096) hlen0 (by omega)
  have hposI : (pos (S.seek v.stream (min (S.getDataPointer v.stream) 4096)) : Int)
      = pos v.stream + min (S.getDataPointer v.stream) 4096 := by
    rw [hpos]; push_cast; rw [Int.toNat_of_nonneg (by omega)]
  have hle : pos (S.seek v.stream (min (S.getDataPointer v.stream) 4096)) ≤ N := by omega
  refine ⟨min (S.getDataPointer v.stream) 4096, hlen0, by omega, hposI, hle, rfl, ?_, ?_⟩
  · show (!S.isFinished (S.seek v.stream (min (S.getDataPointer v.stream) 4096)))
      = decide (pos (S.seek v.stream (min (S.getDataPointer v.stream) 4096)) < N)
    by_cases hf : S.isFinished (S.seek v.stream (min (S.getDataPointer v.stream) 4096)) = true
    · have := (hfin _).1 hf
      simp [hf, this]
    · have hne : pos (S.seek v.stream (min (S.getDataPointer v.stream) 4096)) ≠ N :=
        fun h => hf ((hfin _).2 h)
      have hlt : pos (S.seek v.stream (min (S.getDataPointer v.stream) 4096)) < N := by omega
      simp [hf, hlt]
  · show ioTrace (((((v.world.note Ev.getDataPointer).call T _).note _).note _)).log = _
    simp [note_log, call_log, ioTrace_append, ioTrace, chunkTrace]

/-- One run of the inner loop on a source that is not exhausted, when every
send is accepted: the cursor moves forward by what `total` gains, chunk by
chunk, and `repeat` ends up saying whether the source is not exhausted. -/
theorem joinFragments_drains {σ τ : Type} (T : Lwip σ) (S : IDataSourceStream τ)
    (c : TcpConnection) (nsbs : Int) (pos : τ → Nat) (N : Nat)
    (hacc : ∀ s len fl, T.tcp_write s c.tcp len fl = ERR_OK) (hS : WellBehaved S pos N) :
    ∀ (left : Nat) (v : StreamVars σ τ), pos v.stream < N →
      ∃ (v1 : StreamVars σ τ) (lens : List Int),
        joinFragments T S c nsbs (left + 1) v = some v1 ∧
        pos v.stream < pos v1.stream ∧ pos v1.stream ≤ N ∧
        v1.total = v.total + ((pos v1.stream : Int) - pos v.stream) ∧
        v1.repeat_ = decide (pos v1.stream < N) ∧
        ioTrace v1.world.log = ioTrace v.world.log ++
          chunkTrace c.tcp (TCP_WRITE_FLAG_COPY ||| TCP_WRITE_FLAG_MORE) lens ∧
        lens.sum = (pos v1.stream : Int) - pos v.stream ∧
        (∀ l ∈ lens, 0 < l ∧ l ≤ 4096) := by
  intro left
  induction left with
  | zero =>
    intro v hp
    obtain ⟨len, hl0, hl1, hpos, hle, htot, hrep, htr⟩ := pushedInFull_facts T S c pos N hS v hp
    refine ⟨pushedInFull T S c v, [len], ?_, by omega, hle, by rw [htot]; omega, hrep, htr,
      by simp; omega, by simp [hl0, hl1]⟩
    rw [joinFragments_accepted T S c nsbs 0 v hacc (hS.2.1 v.stream hp).1]
    split <;> rfl
  | succ k ih =>
    intro v hp
    obtain ⟨len, hl0, hl1, hpos, hle, htot, hrep, htr⟩ := pushedInFull_facts T S c pos N hS v hp
    rw [joinFragments_accepted T S c nsbs (k + 1) v hacc (hS.2.1 v.stream hp).1]
    split
    · rename_i hcond
      have hlt : pos (pushedInFull T S c v).stream < N := by
        have := hcond.1
        rw [hrep] at this
        exact of_decide_eq_true this
      obtain ⟨v2, lens, hj, h1, h2, h3, h4, h5, h6, h7⟩ := ih (pushedInFull T S c v) hlt
      refine ⟨v2, len :: lens, hj, by omega, h2, by rw [h3, htot]; omega, h4, ?_, ?_, ?_⟩
      · rw [h5, htr, List.append_assoc, ← chunkTrace_append]
        rfl
      · simp only [List.sum_cons]; omega
      · intro l hl
        rcases List.mem_cons.1 hl with rfl | hl
        · exact ⟨hl0, hl1⟩
        · exact h7 l hl
    · exact ⟨pushedInFull T S c v, [len], rfl, by omega, hle, by rw [htot]; omega, hrep, htr,
        by simp; omega, by simp [hl0, hl1]⟩

/-- The outer loop on a source that is not exhausted, when every send is
accepted and the queue stays below its slot ceiling: with fuel for one pass
per byte left it ends with the source exhausted and `total` raised by what
was left. -/
theorem writeStreamLoop_drains {σ τ : Type} (T : Lwip σ) (S : IDataSourceStream τ)
    (c : TcpConnection) (nsbs : Int) (pos : τ → Nat) (N : Nat)
    (hacc : ∀ s len fl, T.tcp_write s c.tcp len fl = ERR_OK)
    (hq : ∀ s, T.tcp_sndqueuelen s c.tcp < T.TCP_SND_QUEUELEN) (hS : WellBehaved S pos N) :
    ∀ (fuel : Nat) (stream : τ) (total : Int) (rep : Bool) (w : World σ),
      pos stream < N → N - pos stream ≤ fuel →
      ∃ (stream1 : τ) (w1 : World σ) (lens : List Int),
        writeStreamLoop T S c nsbs fuel stream total rep w
          = some (stream1, total + ((N : Int) - pos stream), w1) ∧
        pos stream1 = N ∧
        ioTrace w1.log = ioTrace w.log ++
          chunkTrace c.tcp (TCP_WRITE_FLAG_COPY ||| TCP_WRITE_FLAG_MORE) lens ∧
        lens.sum = (N : Int) - pos stream ∧
        (∀ l ∈ lens, 0 < l ∧ l ≤ 4096) := by
  intro fuel
  induction fuel with
  | zero => intro stream total rep w hp hf; omega
  | succ n ih =>
    intro stream total rep w hp hf
    obtain ⟨v1, lens, hj, h1, h2, h3, h4, h5, h6, h7⟩ :=
      joinFragments_drains T S c nsbs pos N hacc hS 25
        { stream := stream, curPart := 0, total := total, repeat_ := rep,
          world := w.call T (Ev.tcp_sndqueuelen c.tcp) } hp
    simp only at h1 h3 h5 h6
    rw [writeStreamLoop]
    simp only [hq, decide_True, Bool.true_eq_false, if_false, hj, and_true]
    split
    · rename_i hrep
      have hlt : pos v1.stream < N := by
        rw [h4] at hrep
        exact of_decide_eq_true hrep
      obtain ⟨s2, w2, lens2, hloop, hfin, htr, hsum, hall⟩ :=
        ih v1.stream v1.total v1.repeat_ (v1.world.call T (Ev.tcp_sndqueuelen c.tcp)) hlt
          (by omega)
      refine ⟨s2, w2, lens ++ lens2, ?_, hfin, ?_, ?_, ?_⟩
      · rw [hloop, h3]
        congr 3
        omega
      · rw [htr, chunkTrace_append, ← List.append_assoc]
        congr 1
        rw [call_log, ioTrace_append, h5, call_log, ioTrace_append]
        simp [ioTrace]
      · rw [List.sum_append, h6, hsum]; omega
      · intro l hl
        rcases List.mem_append.1 hl with hl | hl
        · exact h7 l hl
        · exact hall l hl
    · rename_i hrep
      have hge : pos v1.stream = N := by
        rw [h4] at hrep
        have : ¬ pos v1.stream < N := fun h => hrep (decide_eq_true h)
        omega
      refine ⟨v1.stream, v1.world.call T (Ev.tcp_sndqueuelen c.tcp), lens, ?_, hge, ?_, ?_, h7⟩
      · rw [h3, hge]
      · rw [call_log, ioTrace_append, h5, call_log, ioTrace_append]
        simp [ioTrace]
      · rw [h6, hge]

theorem flush_ioTrace {σ : Type} (T : Lwip σ) (c : TcpConnection) (w : World σ) :
    ioTrace (flush T c w).log = ioTrace w.log := by
  unfold flush
  simp only
  split <;> simp [call_log, ioTrace_append, ioTrace]

/-- C5: for a well-behaved source of total size `N ≥ 1` at its start, a
transport that accepts every send in full and a queue that is always below
its slot ceiling, `write(stream)` returns (any fuel of at least `N` passes is
enough) with the value `N` and leaves the source exhausted, so the calls
made until the source is exhausted are this one call and their values sum to
`N`.  Of the log it adds, the sends and cursor moves are, in order, one
accepted send of a chunk followed by a move of the cursor by that chunk's
length, for chunks of 1 to 4096 bytes whose lengths add up to `N`. -/
theorem stream_write_drains_source {σ τ : Type} (T : Lwip σ) (S : IDataSourceStream τ)
    (c : TcpConnection) (nsbs : Int) (pos : τ → Nat) (N : Nat) (fuel : Nat) (repeat0 : Bool)
    (stream : τ) (w : World σ)
    (hN : 1 ≤ N)
    (hacc : ∀ s len fl, T.tcp_write s c.tcp len fl = ERR_OK)
    (hq : ∀ s, T.tcp_sndqueuelen s c.tcp < T.TCP_SND_QUEUELEN)
    (hS : WellBehaved S pos N) (h0 : pos stream = 0) (hfuel : N ≤ fuel) :
    ∃ (stream1 : τ) (w1 : World σ) (lens : List Int),
      writeStream T S c nsbs fuel repeat0 stream w = some ((N : Int), stream1, w1) ∧
      S.isFinished stream1 = true ∧ pos stream1 = N ∧
      ioTrace w1.log = ioTrace w.log ++
        chunkTrace c.tcp (TCP_WRITE_FLAG_COPY ||| TCP_WRITE_FLAG_MORE) lens ∧
      lens.sum = (N : Int) ∧ (∀ l ∈ lens, 0 < l ∧ l ≤ 4096) := by
  obtain ⟨s1, w1, lens, hloop, hfin, htr, hsum, hall⟩ :=
    writeStreamLoop_drains T S c nsbs pos N hacc hq hS fuel stream 0 repeat0 w
      (by omega) (by omega)
  refine ⟨s1, flush T c w1, lens, ?_, (hS.1 s1).2 hfin, hfin, ?_, ?_, hall⟩
  · unfold writeStream
    rw [hloop]
    simp [h0]
  · rw [flush_ioTrace, htr]
  · rw [hsum, h0]; simp

/-- C5 at a concrete input: a source of 3 bytes in one piece against a
transport with unlimited room. -/
theorem stream_write_drains_source_witness :
    ∃ (stream1 : Nat) (w1 : World Unit) (lens : List Int),
      writeStream roomyLwip (plainSource 3) liveCon 1024 3 false 0 emptyWorld
        = some (((3 : Nat) : Int), stream1, w1) ∧
      (plainSource 3).isFinished stream1 = true ∧ min stream1 3 = 3 ∧
      ioTrace w1.log = ioTrace emptyWorld.log ++
        chunkTrace liveCon.tcp (TCP_WRITE_FLAG_COPY ||| TCP_WRITE_FLAG_MORE) lens ∧
      lens.sum = ((3 : Nat) : Int) ∧ (∀ l ∈ lens, 0 < l ∧ l ≤ 4096) :=
  stream_write_drains_source roomyLwip (plainSource 3) liveCon 1024 (fun p => min p 3) 3 3 false
    0 emptyWorld (by decide) (fun _ _ _ => rfl) (fun _ => Nat.succ_pos 7)
    ⟨fun t => by simp [plainSource],
     fun t ht => by
       have ht1 : min t 3 < 3 := ht
       simp only [plainSource]
       show (0 : Int) < ((3 : Nat) : Int) - t ∧ ((3 : Nat) : Int) - t ≤ ((3 : Nat) : Int) - (min t 3 : Nat)
       omega,
     fun t n hn hle => by
       have hle1 : n ≤ ((3 : Nat) : Int) - t := hle
       show min (t + n.toNat) 3 = min t 3 + n.toNat
       omega⟩
    rfl (by decide)

/-! ## C6: the idle timeout -/

theorem staticOnPoll_below_timeout {σ : Type} (T : Lwip σ) (c : TcpConnection) (pcb : Pcb)
    (w : World σ) (htcp : c.tcp = some pcb) (hlt : c.sleep + 1 < c.timeOut)
    (hmax : c.timeOut < 65535) :
    (staticOnPoll T (some c) (some pcb) w).con = some { c with sleep := c.sleep + 1 } := by
  have hmod : (c.sleep + 1) % 65536 = c.sleep + 1 := Nat.mod_eq_of_lt (by omega)
  simp only [staticOnPoll, onPoll, hmod]
  rw [if_neg (by intro h; omega)]
  simp [checkSelfFree, htcp]

theorem staticOnPoll_at_timeout {σ : Type} (T : Lwip σ) (c : TcpConnection) (pcb : Pcb)
    (w : World σ) (htcp : c.tcp = some pcb) (heq : c.sleep + 1 = c.timeOut)
    (hmax : c.timeOut < 65535) :
    (staticOnPoll T (some c) (some pcb) w).con =
      if c.autoSelfDestruct = true then none
      else some { c with sleep := c.sleep + 1, tcp := none } := by
  have hmod : (c.sleep + 1) % 65536 = c.sleep + 1 := Nat.mod_eq_of_lt (by omega)
  simp only [staticOnPoll, onPoll, hmod]
  rw [if_pos ⟨by omega, by simp only [USHRT_MAX]; omega⟩]
  simp only [close, htcp, checkSelfFree]
  split <;> simp_all

theorem idlePolls_below_timeout {σ : Type} (T : Lwip σ) (c : TcpConnection) (pcb : Pcb)
    (w : World σ) (htcp : c.tcp = some pcb) (hs : c.sleep = 0) (hmax : c.timeOut < 65535) :
    ∀ k, k < c.timeOut →
      (idlePolls T (some pcb) k (some c) w).1 = some { c with sleep := k } := by
  intro k
  induction k with
  | zero =>
    intro _
    simp only [idlePolls]
    rw [← hs]
  | succ n ih =>
    intro hk
    have hprev := ih (by omega)
    simp only [idlePolls, hprev, htcp]
    simp only [ne_eq, not_false_eq_true, if_true, reduceCtorEq]
    have hstep := staticOnPoll_below_timeout T { c with sleep := n } pcb
      (idlePolls T (some pcb) n (some c) w).2 htcp (by simpa using hk) hmax
    simpa [htcp] using hstep

/-- C6: for a timeout `Tm` with `1 ≤ Tm < 65535` and an object with a live
handle whose idle counter is 0, a run of consecutive idle-poll dispatches
leaves the object untouched but for its counter, handle present, after each
of the first `Tm - 1` polls, and the `Tm`-th poll makes the handle absent
(the object is then destroyed if it self-destructs).  A Sent dispatch and a
Received dispatch with data on an object with a live handle leave the counter
at 0. -/
theorem idle_timeout_closes_on_last_poll {σ : Type} (T : Lwip σ) (c : TcpConnection)
    (pcb : Pcb) (Tm : Nat) (w : World σ)
    (h1 : 1 ≤ Tm) (h2 : Tm < 65535) (htcp : c.tcp = some pcb) (hs : c.sleep = 0)
    (ht : c.timeOut = Tm) :
    (∀ k, k < Tm → (idlePolls T (some pcb) k (some c) w).1 = some { c with sleep := k } ∧
      ({ c with sleep := k } : TcpConnection).tcp = some pcb) ∧
    (idlePolls T (some pcb) Tm (some c) w).1 =
      (if c.autoSelfDestruct = true then none
       else some { c with sleep := Tm, tcp := none }) ∧
    (∀ (c1 : TcpConnection) (len : Nat) (w1 : World σ), c1.tcp ≠ none →
      (staticOnSent T (some c1) (some pcb) len w1).con = some { c1 with sleep := 0 }) ∧
    (∀ (c1 : TcpConnection) (b : pbuf) (w1 : World σ), c1.tcp ≠ none →
      (staticOnReceive T (some c1) (some pcb) (some b) ERR_OK w1).con
        = some { c1 with sleep := 0 }) := by
  subst ht
  refine ⟨fun k hk => ⟨idlePolls_below_timeout T c pcb w htcp hs h2 k hk, htcp⟩, ?_, ?_, ?_⟩
  · obtain ⟨n, hn⟩ : ∃ n, c.timeOut = n + 1 := ⟨c.timeOut - 1, by omega⟩
    have hprev := idlePolls_below_timeout T c pcb w htcp hs h2 n (by omega)
    rw [hn]
    simp only [idlePolls, hprev, htcp]
    simp only [ne_eq, not_false_eq_true, if_true, reduceCtorEq]
    have hstep := staticOnPoll_at_timeout T { c with sleep := n } pcb
      (idlePolls T (some pcb) n (some c) w).2 htcp (by simpa using hn.symm) (by simpa using h2)
    simpa [htcp, hn] using hstep
  · intro c1 len w1 hc1
    simp [staticOnSent, onSent, checkSelfFree, hc1]
  · intro c1 b w1 hc1
    simp [staticOnReceive, onReceive, checkSelfFree, hc1]

/-- C6 at a concrete input: timeout 3 on the object `liveCon`. -/
theorem idle_timeout_closes_on_last_poll_witness :
    (∀ k, k < 3 →
      (idlePolls (capacityLwip 5) (some 1) k (some liveCon) emptyWorld).1
        = some { liveCon with sleep := k } ∧
      ({ liveCon with sleep := k } : TcpConnection).tcp = some 1) ∧
    (idlePolls (capacityLwip 5) (some 1) 3 (some liveCon) emptyWorld).1 =
      (if liveCon.autoSelfDestruct = true then none
       else some { liveCon with sleep := 3, tcp := none }) ∧
    (∀ (c1 : TcpConnection) (len : Nat) (w1 : World Unit), c1.tcp ≠ none →
      (staticOnSent (capacityLwip 5) (some c1) (some 1) len w1).con
        = some { c1 with sleep := 0 }) ∧
    (∀ (c1 : TcpConnection) (b : pbuf) (w1 : World Unit), c1.tcp ≠ none →
      (staticOnReceive (capacityLwip 5) (some c1) (some 1) (some b) ERR_OK w1).con
        = some { c1 with sleep := 0 }) :=
  idle_timeout_closes_on_last_poll (capacityLwip 5) liveCon 1 3 emptyWorld (by decide)
    (by decide) rfl rfl rfl

/-! ## C7: the self-destruct check after a dispatch -/

/-- C7, as the code behaves: a Received dispatch with a failure status on a
self-destructing object makes the handle absent, calls the error handler and
returns the status without making the self-destruct check: the object is
still there, handle absent.  The Error dispatch with the same status does
make the check, after the handler, and destroys the object. -/
theorem receive_error_skips_self_destruct_check :
    liveCon.autoSelfDestruct = true ∧
    (staticOnReceive (capacityLwip 5) (some liveCon) (some 1) none ERR_ABRT emptyWorld).ret
      = ERR_ABRT ∧
    (staticOnReceive (capacityLwip 5) (some liveCon) (some 1) none ERR_ABRT emptyWorld).con
      = some { liveCon with tcp := none } ∧
    (staticOnReceive (capacityLwip 5) (some liveCon) (some 1) none ERR_ABRT emptyWorld).world.log
      = teardownCalls (some 1) ++ [Ev.onError ERR_ABRT none] ∧
    (staticOnError (capacityLwip 5) (some liveCon) ERR_ABRT emptyWorld).1 = none ∧
    (staticOnError (capacityLwip 5) (some liveCon) ERR_ABRT emptyWorld).2.log
      = [Ev.onError ERR_ABRT none, Ev.checkSelfFree, Ev.deleteThis] := by
  refine ⟨rfl, ?_, ?_, ?_, ?_, ?_⟩ <;> decide

/-! ## C8 and C9: dispatch without a connection object -/

theorem closeTcpConnection_log {σ : Type} (T : Lwip σ) (pcb : Pcb) (w : World σ) :
    (closeTcpConnection T (some pcb) w).log = w.log ++ teardownCalls (some pcb) ++
      (if T.tcp_close (deregister T (some pcb) w).net (some pcb) ≠ ERR_OK
       then [Ev.tcp_poll (some pcb) true 4] else []) := by
  unfold closeTcpConnection
  simp only
  split <;> simp [call_log, deregister, teardownCalls]

/-- C8, as the code behaves: the connect-completion entry point, called
without an object, aborts the handle; it does not clear a callback and does
not attempt `tcp_close`. -/
theorem connected_without_object_aborts :
    (staticOnConnected (capacityLwip 5) none (some 1) ERR_OK emptyWorld).world.log
      = [Ev.tcp_abort (some 1)] ∧
    Ev.tcp_close (some 1) ∉
      (staticOnConnected (capacityLwip 5) none (some 1) ERR_OK emptyWorld).world.log := by
  constructor <;> decide

/-- C8, amended: called without an object, the Received and idle-poll entry
points tear the handle down themselves (Received after acknowledging and
freeing a delivered buffer): they clear the argument and the callbacks,
attempt `tcp_close`, and re-register the idle-poll callback exactly when that
attempt fails; the connect-completion entry point aborts the handle
instead. -/
theorem teardown_without_object {σ : Type} (T : Lwip σ) (pcb : Pcb) (err : err_t)
    (w : World σ) :
    (staticOnPoll T none (some pcb) w).world.log = w.log ++ teardownCalls (some pcb) ++
      (if T.tcp_close (deregister T (some pcb) w).net (some pcb) ≠ ERR_OK
       then [Ev.tcp_poll (some pcb) true 4] else []) ∧
    (staticOnReceive T none (some pcb) none err w).world.log
      = w.log ++ teardownCalls (some pcb) ++
      (if T.tcp_close (deregister T (some pcb) w).net (some pcb) ≠ ERR_OK
       then [Ev.tcp_poll (some pcb) true 4] else []) ∧
    (∀ b : pbuf, (staticOnReceive T none (some pcb) (some b) err w).world.log
      = w.log ++ [Ev.tcp_recved (some pcb) b.tot_len, Ev.pbuf_free] ++ teardownCalls (some pcb) ++
      (if T.tcp_close (deregister T (some pcb)
          ((w.call T (Ev.tcp_recved (some pcb) b.tot_len)).call T Ev.pbuf_free)).net (some pcb)
          ≠ ERR_OK
       then [Ev.tcp_poll (some pcb) true 4] else [])) ∧
    (staticOnConnected T none (some pcb) err w).world.log = w.log ++ [Ev.tcp_abort (some pcb)] := by
  refine ⟨?_, ?_, ?_, ?_⟩
  · simp only [staticOnPoll, closeTcpConnection_log]
  · simp only [staticOnReceive, closeTcpConnection_log]
  · intro b
    simp only [staticOnReceive, closeTcpConnection_log, call_log, List.append_assoc]
    rfl
  · simp only [staticOnConnected, call_log]

/-- C9, as the code behaves: the connect-completion entry point, called
without an object, returns `ERR_ABRT`, which is not `ERR_OK`. -/
theorem connected_without_object_returns_abort :
    (staticOnConnected (capacityLwip 5) none (some 1) ERR_OK emptyWorld).ret = ERR_ABRT ∧
    (staticOnConnected (capacityLwip 5) none (some 1) ERR_OK emptyWorld).ret ≠ ERR_OK := by
  constructor <;> decide

/-- C9, amended: called without an object, the Received, Sent and idle-poll
entry points return `ERR_OK` for every value of their other arguments, and
the connect-completion entry point returns `ERR_ABRT`, having aborted the
handle. -/
theorem status_without_object {σ : Type} (T : Lwip σ) (tcp : Option Pcb) (p : Option pbuf)
    (err : err_t) (len : Nat) (w : World σ) :
    (staticOnReceive T none tcp p err w).ret = ERR_OK ∧
    (staticOnSent T none tcp len w).ret = ERR_OK ∧
    (staticOnPoll T none tcp w).ret = ERR_OK ∧
    (staticOnConnected T none tcp err w).ret = ERR_ABRT :=
  ⟨rfl, rfl, rfl, rfl⟩

/-! ## C10: a failed resolution -/

theorem initializeConn_log {σ : Type} (T : Lwip σ) (c : TcpConnection) (pcb : Option Pcb)
    (w : World σ) :
    (initializeConn T c pcb w).2.log = w.log ++ [Ev.tcp_arg pcb true, Ev.tcp_sent pcb true,
      Ev.tcp_recv pcb true, Ev.tcp_err pcb true, Ev.tcp_poll pcb true 4] := by
  simp [initializeConn, call_log]

/-- C11, as the code behaves: on a freshly constructed object the
numeric-address connect is accepted by the transport and `canSend` is true,
as the constructor left it, since `connect(IPAddress, uint16_t)` does not
touch it; an idle-poll before the connect completes then delivers a
ready-to-send notification.  The hostname form does set `canSend` to false
while its lookup is in progress. -/
theorem numeric_connect_leaves_canSend_true :
    (newTcpConnection roomyLwip false emptyWorld).1.canSend = true ∧
    (connectAddr roomyLwip (newTcpConnection roomyLwip false emptyWorld).1 9 80
      (newTcpConnection roomyLwip false emptyWorld).2).1 = true ∧
    (staticOnPoll roomyLwip (some (newTcpConnection roomyLwip false emptyWorld).1) (some 1)
      emptyWorld).world.log
      = [Ev.onReadyToSendData TcpConnectionEvent.eTCE_Poll, Ev.checkSelfFree] ∧
    (connectHost (resolverLwip ERR_INPROGRESS) (newTcpConnection roomyLwip false emptyWorld).1
      "host" 80 emptyWorld).1 = true ∧
    (connectHost (resolverLwip ERR_INPROGRESS) (newTcpConnection roomyLwip false emptyWorld).1
      "host" 80 emptyWorld).2.1.canSend = false := by
  refine ⟨rfl, ?_, ?_, ?_, rfl⟩ <;> decide

/-! ## C12: the connect-completion dispatch -/

/-- C12: on an object with a live handle, a connect-completion event with
success status sets `canSend`, delivers one ready-to-send notification, tagged
Connected, and leaves the handle present; one with a failure status delivers
no notification and leaves the handle absent (the object is then destroyed
if it self-destructs). -/
theorem connect_completion_dispatch {σ : Type} (T : Lwip σ) (c : TcpConnection) (pcb : Pcb)
    (tcp : Option Pcb) (err : err_t) (w : World σ) (htcp : c.tcp = some pcb)
    (herr : err ≠ ERR_OK) :
    (staticOnConnected T (some c) tcp ERR_OK w).con = some { c with canSend := true } ∧
    ({ c with canSend := true } : TcpConnection).tcp = some pcb ∧
    (staticOnConnected T (some c) tcp ERR_OK w).world.log
      = w.log ++ [connectedEvent, Ev.checkSelfFree] ∧
    (staticOnConnected T (some c) tcp err w).con
      = (if c.autoSelfDestruct = true then none
         else some { c with canSend := true, tcp := none }) ∧
    (staticOnConnected T (some c) tcp err w).world.log
      = w.log ++ [Ev.tcp_arg (some pcb) false, Ev.checkSelfFree] ++
        (if c.autoSelfDestruct = true then [Ev.deleteThis] else []) := by
  refine ⟨?_, htcp, ?_, ?_, ?_⟩
  · simp [staticOnConnected, onConnected, checkSelfFree, htcp]
  · simp [staticOnConnected, onConnected, checkSelfFree, htcp, onReadyToSendData, note_log,
      connectedEvent]
  · simp only [staticOnConnected, onConnected, herr, if_false, close, htcp, checkSelfFree]
    split <;> simp_all
  · simp only [staticOnConnected, onConnected, herr, if_false, close, htcp, checkSelfFree]
    split <;> simp_all [note_log, call_log, close]

/-- C12 at a concrete input: the object `liveCon` and the failure status
`ERR_ABRT`. -/
theorem connect_completion_dispatch_witness :
    (staticOnConnected roomyLwip (some liveCon) (some 1) ERR_OK emptyWorld).con
      = some { liveCon with canSend := true } ∧
    ({ liveCon with canSend := true } : TcpConnection).tcp = some 1 ∧
    (staticOnConnected roomyLwip (some liveCon) (some 1) ERR_OK emptyWorld).world.log
      = emptyWorld.log ++ [connectedEvent, Ev.checkSelfFree] ∧
    (staticOnConnected roomyLwip (some liveCon) (some 1) ERR_ABRT emptyWorld).con
      = (if liveCon.autoSelfDestruct = true then none
         else some { liveCon with canSend := true, tcp := none }) ∧
    (staticOnConnected roomyLwip (some liveCon) (some 1) ERR_ABRT emptyWorld).world.log
      = emptyWorld.log ++ [Ev.tcp_arg (some 1) false, Ev.checkSelfFree] ++
        (if liveCon.autoSelfDestruct = true then [Ev.deleteThis] else []) :=
  connect_completion_dispatch roomyLwip liveCon 1 (some 1) ERR_ABRT emptyWorld rfl (by decide)

/-! ## C13: the result of the hostname connect -/

/-- C14: on an object with a live handle, a Received dispatch with no-error
status and no payload delivers no ready-to-send notification, clears the
argument of the object's handle, tears the raw handle `raw` down (clearing
its callbacks, attempting `tcp_close`, re-registering the idle-poll callback
when that fails) and leaves the handle of the object absent (the object is
then destroyed if it self-destructs); with a payload it acknowledges the
data, delivers one ready-to-send notification, tagged Received, frees the
buffer and leaves the handle present. -/
theorem received_dispatch {σ : Type} (T : Lwip σ) (c : TcpConnection) (pcb raw : Pcb)
    (b : pbuf) (w : World σ) (htcp : c.tcp = some pcb) :
    (staticOnReceive T (some c) (some raw) none ERR_OK w).con
      = (if c.autoSelfDestruct = true then none
         else some { c with sleep := 0, tcp := none }) ∧
    (staticOnReceive T (some c) (some raw) none ERR_OK w).world.log
      = w.log ++ [Ev.tcp_arg (some pcb) false] ++ teardownCalls (some raw) ++
        (if T.tcp_close (deregister T (some raw) (w.call T (Ev.tcp_arg (some pcb) false))).net
            (some raw) ≠ ERR_OK
         then [Ev.tcp_poll (some raw) true 4] else []) ++
        [Ev.checkSelfFree] ++ (if c.autoSelfDestruct = true then [Ev.deleteThis] else []) ∧
    (staticOnReceive T (some c) (some raw) (some b) ERR_OK w).con
      = some { c with sleep := 0 } ∧
    ({ c with sleep := 0 } : TcpConnection).tcp = some pcb ∧
    (staticOnReceive T (some c) (some raw) (some b) ERR_OK w).world.log
      = w.log ++ [Ev.tcp_recved (some raw) b.tot_len,
          Ev.onReadyToSendData TcpConnectionEvent.eTCE_Received, Ev.pbuf_free,
          Ev.checkSelfFree] := by
  have hne : ¬ (ERR_OK ≠ ERR_OK) := fun h => h rfl
  refine ⟨?_, ?_, ?_, htcp, ?_⟩
  · simp only [staticOnReceive, hne, if_false, onReceive, close, htcp, checkSelfFree]
    split <;> simp_all
  · simp only [staticOnReceive, hne, if_false, onReceive, close, htcp, checkSelfFree]
    split
    · rename_i h
      simp only [h.2, if_true, close, note_log, closeTcpConnection_log, List.append_assoc]
      simp [call_log]
    · rename_i h
      have ha : c.autoSelfDestruct = false := by simpa using h
      simp only [ha, note_log, closeTcpConnection_log, List.append_assoc]
      simp [call_log]
  · simp [staticOnReceive, onReceive, checkSelfFree, htcp]
  · simp [staticOnReceive, onReceive, checkSelfFree, htcp, onReadyToSendData, note_log,
      call_log]

/-- C14 at a concrete input: the object `liveCon`, its own handle as the raw
handle, and a buffer of 5 bytes. -/
theorem received_dispatch_witness :
    (staticOnReceive roomyLwip (some liveCon) (some 1) none ERR_OK emptyWorld).con
      = (if liveCon.autoSelfDestruct = true then none
         else some { liveCon with sleep := 0, tcp := none }) ∧
    (staticOnReceive roomyLwip (some liveCon) (some 1) none ERR_OK emptyWorld).world.log
      = emptyWorld.log ++ [Ev.tcp_arg (some 1) false] ++ teardownCalls (some 1) ++
        (if roomyLwip.tcp_close
            (deregister roomyLwip (some 1)
              (emptyWorld.call roomyLwip (Ev.tcp_arg (some 1) false))).net (some 1) ≠ ERR_OK
         then [Ev.tcp_poll (some 1) true 4] else []) ++
        [Ev.checkSelfFree] ++
        (if liveCon.autoSelfDestruct = true then [Ev.deleteThis] else []) ∧
    (staticOnReceive roomyLwip (some liveCon) (some 1) (some ⟨5⟩) ERR_OK emptyWorld).con
      = some { liveCon with sleep := 0 } ∧
    ({ liveCon with sleep := 0 } : TcpConnection).tcp = some 1 ∧
    (staticOnReceive roomyLwip (some liveCon) (some 1) (some ⟨5⟩) ERR_OK emptyWorld).world.log
      = emptyWorld.log ++ [Ev.tcp_recved (some 1) (pbuf.mk 5).tot_len,
          Ev.onReadyToSendData TcpConnectionEvent.eTCE_Received, Ev.pbuf_free,
          Ev.checkSelfFree] :=
  received_dispatch roomyLwip liveCon 1 1 ⟨5⟩ emptyWorld rfl

/-! ## C15: the handle when the error handler runs -/

/-- C15: on both paths that call the error handler, the handler is entered
on an object whose handle is already absent (its log entry records the
handle `none`), and the handle is absent when the entry point returns.  The
Error entry point does so for every status, and afterwards makes the
self-destruct check; the Received entry point called with a non-OK status
first frees a delivered buffer and tears the raw handle down. -/
theorem error_invalidates_handle_first {σ : Type} (T : Lwip σ) (c : TcpConnection)
    (raw : Pcb) (p : Option pbuf) (err : err_t) (w : World σ) (herr : err ≠ ERR_OK) :
    (∀ e : err_t,
      (staticOnError T (some c) e w).1
        = (if c.autoSelfDestruct = true then none else some { c with tcp := none }) ∧
      (staticOnError T (some c) e w).2.log
        = w.log ++ [Ev.onError e none, Ev.checkSelfFree] ++
          (if c.autoSelfDestruct = true then [Ev.deleteThis] else [])) ∧
    (staticOnReceive T (some c) (some raw) p err w).con
      = some { c with sleep := 0, tcp := none } ∧
    (staticOnReceive T (some c) (some raw) p err w).world.log
      = w.log ++ (if p ≠ none then [Ev.pbuf_free] else []) ++ teardownCalls (some raw) ++
        (if T.tcp_close
            (deregister T (some raw) (if p ≠ none then w.call T Ev.pbuf_free else w)).net
            (some raw) ≠ ERR_OK
         then [Ev.tcp_poll (some raw) true 4] else []) ++
        [Ev.onError err none] := by
  refine ⟨fun e => ⟨?_, ?_⟩, ?_, ?_⟩
  · simp only [staticOnError, checkSelfFree]
    split <;> simp_all
  · simp only [staticOnError, checkSelfFree, onError]
    split
    · rename_i h
      simp [h.2, close, note_log]
    · rename_i h
      have ha : c.autoSelfDestruct = false := by simpa using h
      simp [ha, note_log]
  · simp [staticOnReceive, herr]
  · simp only [staticOnReceive, herr, ne_eq, not_false_eq_true, if_true, onError, note_log,
      closeTcpConnection_log]
    split <;> simp [call_log]

/-- C15 at a concrete input: the object `liveCon`, no buffer, the status
`ERR_ABRT`. -/
theorem error_invalidates_handle_first_witness :
    (∀ e : err_t,
      (staticOnError roomyLwip (some liveCon) e emptyWorld).1
        = (if liveCon.autoSelfDestruct = true then none else some { liveCon with tcp := none }) ∧
      (staticOnError roomyLwip (some liveCon) e emptyWorld).2.log
        = emptyWorld.log ++ [Ev.onError e none, Ev.checkSelfFree] ++
          (if liveCon.autoSelfDestruct = true then [Ev.deleteThis] else [])) ∧
    (staticOnReceive roomyLwip (some liveCon) (some 1) none ERR_ABRT emptyWorld).con
      = some { liveCon with sleep := 0, tcp := none } ∧
    (staticOnReceive roomyLwip (some liveCon) (some 1) none ERR_ABRT emptyWorld).world.log
      = emptyWorld.log ++ (if (none : Option pbuf) ≠ none then [Ev.pbuf_free] else []) ++
        teardownCalls (some 1) ++
        (if roomyLwip.tcp_close
            (deregister roomyLwip (some 1)
              (if (none : Option pbuf) ≠ none then emptyWorld.call roomyLwip Ev.pbuf_free
               else emptyWorld)).net
            (some 1) ≠ ERR_OK
         then [Ev.tcp_poll (some 1) true 4] else []) ++
        [Ev.onError ERR_ABRT none] :=
  error_invalidates_handle_first roomyLwip liveCon 1 none ERR_ABRT emptyWorld (by decide)

/-! ## C16: the sentinel timeout -/

theorem staticOnPoll_sentinel {σ : Type} (T : Lwip σ) (c : TcpConnection) (pcb : Pcb)
    (tcp : Option Pcb) (w : World σ) (htcp : c.tcp = some pcb) (hto : c.timeOut = USHRT_MAX) :
    (staticOnPoll T (some c) tcp w).con = some { c with sleep := (c.sleep + 1) % 65536 } := by
  simp only [staticOnPoll, onPoll, hto]
  rw [if_neg (fun h => h.2 rfl)]
  simp [checkSelfFree, htcp]

/-- C16: with the timeout set to the sentinel 65535 by `setTimeOut`, no
idle-poll dispatch closes the object, whatever its idle counter: one dispatch
on an object with a live handle only moves the counter on (wrapping at
65536), and after any number `n` of consecutive idle-poll dispatches the
object is there with its handle present and nothing changed but the
counter. -/
theorem sentinel_timeout_never_closes {σ : Type} (T : Lwip σ) (c : TcpConnection) (pcb : Pcb)
    (w : World σ) (htcp : c.tcp = some pcb) :
    (∀ (c1 : TcpConnection) (w1 : World σ), c1.tcp = some pcb → c1.timeOut = 65535 →
      (staticOnPoll T (some c1) (some pcb) w1).con
        = some { c1 with sleep := (c1.sleep + 1) % 65536 }) ∧
    (setTimeOut c 65535).timeOut = 65535 ∧
    (∀ n : Nat, ∃ k : Nat,
      (idlePolls T (some pcb) n (some (setTimeOut c 65535)) w).1
        = some { tcp := some pcb, autoSelfDestruct := c.autoSelfDestruct, sleep := k,
                 canSend := c.canSend, timeOut := 65535 }) := by
  refine ⟨fun c1 w1 h1 h2 => staticOnPoll_sentinel T c1 pcb (some pcb) w1 h1 h2, rfl, ?_⟩
  intro n
  induction n with
  | zero =>
    refine ⟨c.sleep, ?_⟩
    simp [idlePolls, setTimeOut, htcp]
  | succ m ih =>
    obtain ⟨k, hk⟩ := ih
    refine ⟨(k + 1) % 65536, ?_⟩
    simp only [idlePolls, hk]
    simp only [ne_eq, reduceCtorEq, not_false_eq_true, if_true]
    rw [staticOnPoll_sentinel T _ pcb (some pcb) _ rfl rfl]

/-- C16 at a concrete input: the object `liveCon` with its idle counter at
65535, about to wrap. -/
theorem sentinel_timeout_never_closes_witness :
    (∀ (c1 : TcpConnection) (w1 : World Unit), c1.tcp = some 1 → c1.timeOut = 65535 →
      (staticOnPoll roomyLwip (some c1) (some 1) w1).con
        = some { c1 with sleep := (c1.sleep + 1) % 65536 }) ∧
    (setTimeOut { liveCon with sleep := 65535 } 65535).timeOut = 65535 ∧
    (∀ n : Nat, ∃ k : Nat,
      (idlePolls roomyLwip (some 1) n (some (setTimeOut { liveCon with sleep := 65535 } 65535))
          emptyWorld).1
        = some { tcp := some 1,
                 autoSelfDestruct := ({ liveCon with sleep := 65535 } : TcpConnection).autoSelfDestruct,
                 sleep := k,
                 canSend := ({ liveCon with sleep := 65535 } : TcpConnection).canSend,
                 timeOut := 65535 }) :=
  sentinel_timeout_never_closes roomyLwip { liveCon with sleep := 65535 } 1 emptyWorld rfl

/-! ## C17: whether the streaming write returns -/

theorem joinFragments_stalled (c : TcpConnection) :
    ∀ (left : Nat) (v : StreamVars Unit Nat), v.stream ≠ 0 → v.repeat_ = true →
      v.curPart < 1024 →
      ∃ v1 : StreamVars Unit Nat,
        joinFragments roomyLwip stallingSource c 1024 left v = some v1 ∧
        v1.stream = v.stream ∧ v1.repeat_ = true := by
  intro left
  induction left with
  | zero => intro v _ hr _; exact ⟨v, rfl, rfl, hr⟩
  | succ n ih =>
    intro v hs hr hc
    rw [joinFragments]
    have hav : stallingSource.getDataPointer v.stream = 0 := by
      simp [stallingSource, hs]
    simp only [hav, le_refl, if_true, hc, and_true]
    rw [if_pos hr]
    exact ih { v with world := v.world.note Ev.getDataPointer } hs hr hc

theorem writeStreamLoop_stalled (c : TcpConnection) :
    ∀ (fuel : Nat) (stream : Nat) (total : Int) (w : World Unit), stream ≠ 0 →
      writeStreamLoop roomyLwip stallingSource c 1024 fuel stream total true w = none := by
  intro fuel
  induction fuel with
  | zero => intro stream total w _; rfl
  | succ n ih =>
    intro stream total w hs
    obtain ⟨v1, hj, hst, hrep⟩ := joinFragments_stalled c 26
      { stream := stream, curPart := 0, total := total, repeat_ := true,
        world := w.call roomyLwip (Ev.tcp_sndqueuelen c.tcp) } hs rfl
      (show (0 : Int) < 1024 by decide)
    rw [writeStreamLoop]
    have hq : ∀ s : Unit, roomyLwip.tcp_sndqueuelen s c.tcp < roomyLwip.TCP_SND_QUEUELEN :=
      fun _ => Nat.succ_pos 7
    simp only [hq, decide_True, Bool.true_eq_false, if_false, hj, hrep, and_self, if_true]
    exact ih v1.stream v1.total _ (by rw [hst]; exact hs)

/-- C17, as the code behaves: against a source that yields 3 bytes and then
reports no byte available without being finished, and a transport with
room, `write(stream)` does not return: whatever the number of passes allowed
to its outer loop, the loop is still running.  After the first chunk
`repeat` is true; each later pull hits `continue`, which leaves `repeat` as it
was, so the inner loop stops only at its cap of 26 pulls and the outer loop,
which has no cap, starts it again. -/
theorem stream_write_spins_on_stalled_source :
    ∀ fuel : Nat,
      writeStream roomyLwip stallingSource liveCon 1024 fuel false 0 emptyWorld = none := by
  intro fuel
  cases fuel with
  | zero => rfl
  | succ n =>
    have hacc : ∀ (s : Unit) (len : Int) (fl : Nat),
        roomyLwip.tcp_write s liveCon.tcp len fl = ERR_OK := fun _ _ _ => rfl
    have hq : ∀ s : Unit,
        roomyLwip.tcp_sndqueuelen s liveCon.tcp < roomyLwip.TCP_SND_QUEUELEN :=
      fun _ => Nat.succ_pos 7
    have hfirst := joinFragments_accepted roomyLwip stallingSource liveCon 1024 25
      { stream := 0, curPart := 0, total := 0, repeat_ := false,
        world := emptyWorld.call roomyLwip (Ev.tcp_sndqueuelen liveCon.tcp) } hacc (by decide)
    rw [if_pos (by decide)] at hfirst
    obtain ⟨v1, hj, hst, hrep⟩ := joinFragments_stalled liveCon 25
      (pushedInFull roomyLwip stallingSource liveCon
        { stream := 0, curPart := 0, total := 0, repeat_ := false,
          world := emptyWorld.call roomyLwip (Ev.tcp_sndqueuelen liveCon.tcp) })
      (by decide) (by decide) (by decide)
    rw [hj] at hfirst
    unfold writeStream
    rw [writeStreamLoop]
    simp only [hq, decide_True, Bool.true_eq_false, if_false, hfirst, hrep, and_self, if_true]
    rw [writeStreamLoop_stalled liveCon n v1.stream v1.total _ (by rw [hst]; decide)]

/-! ## C18: what an idle-poll dispatch delivers -/

/-- C18: an idle-poll dispatch on an object first moves the idle counter on.
If the counter is then at least the timeout and the timeout is not the
sentinel, the object is closed (its handle is absent afterwards, the
argument of a handle it held is cleared) and no ready-to-send notification is
delivered.  Otherwise one ready-to-send notification, tagged Poll, is
delivered when the handle is present and `canSend` is true, and none when the
handle is absent or `canSend` is false.  Either way the self-destruct check
follows. -/
theorem idle_poll_readiness {σ : Type} (T : Lwip σ) (c : TcpConnection) (tcp : Option Pcb)
    (w : World σ) :
    (staticOnPoll T (some c) tcp w).world.log = w.log ++
      (if (c.sleep + 1) % 65536 ≥ c.timeOut ∧ c.timeOut ≠ 65535 then
        (match c.tcp with
         | none => []
         | some p => [Ev.tcp_arg (some p) false]) ++
        [Ev.checkSelfFree] ++ (if c.autoSelfDestruct = true then [Ev.deleteThis] else [])
       else
        (if c.tcp ≠ none ∧ c.canSend = true then
          [Ev.onReadyToSendData TcpConnectionEvent.eTCE_Poll] else []) ++
        [Ev.checkSelfFree] ++
        (if c.tcp = none ∧ c.autoSelfDestruct = true then [Ev.deleteThis] else [])) ∧
    (staticOnPoll T (some c) tcp w).con =
      (if (c.sleep + 1) % 65536 ≥ c.timeOut ∧ c.timeOut ≠ 65535 then
        (if c.autoSelfDestruct = true then none
         else some { c with sleep := (c.sleep + 1) % 65536, tcp := none })
       else
        (if c.tcp = none ∧ c.autoSelfDestruct = true then none
         else some { c with sleep := (c.sleep + 1) % 65536 })) := by
  by_cases hclose : (c.sleep + 1) % 65536 ≥ c.timeOut ∧ c.timeOut ≠ 65535
  · have e1 : onPoll T { c with sleep := (c.sleep + 1) % 65536 } w
        = (ERR_OK, (close T { c with sleep := (c.sleep + 1) % 65536 } w).1,
            (close T { c with sleep := (c.sleep + 1) % 65536 } w).2) := by
      unfold onPoll
      exact if_pos hclose
    simp only [staticOnPoll, e1, if_pos hclose]
    obtain ⟨ctcp, cauto, csleep, csend, cto⟩ := c
    cases ctcp <;> cases cauto <;> simp [close, checkSelfFree, note_log, call_log]
  · have e1 : onPoll T { c with sleep := (c.sleep + 1) % 65536 } w
        = (ERR_OK, { c with sleep := (c.sleep + 1) % 65536 },
            if ({ c with sleep := (c.sleep + 1) % 65536 } : TcpConnection).tcp ≠ none ∧
                ({ c with sleep := (c.sleep + 1) % 65536 } : TcpConnection).canSend = true then
              onReadyToSendData TcpConnectionEvent.eTCE_Poll w else w) := by
      unfold onPoll
      exact if_neg hclose
    simp only [staticOnPoll, e1, if_neg hclose]
    obtain ⟨ctcp, cauto, csleep, csend, cto⟩ := c
    cases ctcp <;> cases cauto <;> cases csend <;>
      simp [close, checkSelfFree, note_log, onReadyToSendData]

/-! ## C19: the result of the flat-buffer write -/

theorem log_two_half (n : Nat) (h : 2 ≤ n) : Nat.log 2 (n / 2) + 1 = Nat.log 2 n := by
  rw [Nat.log_div_base]
  have : 0 < Nat.log 2 n := Nat.log_pos (by decide) h
  omega

/-- A run of the loop of `write` from a length `len` makes at most
`⌊log2 (max len 1)⌋ + 1` send attempts. -/
theorem writeLoop_attempts_log {σ : Type} (T : Lwip σ) (tcp : Option Pcb) (fl : Nat) :
    ∀ (fuel : Nat) (len : Int) (w : World σ) (r : err_t × Int × World σ),
      writeLoop T tcp fl fuel len w = some r →
      (sends r.2.2.log).length ≤ (sends w.log).length + (Nat.log 2 (max len 1).toNat + 1) := by
  intro fuel
  induction fuel with
  | zero => intro len w r h; simp [writeLoop] at h
  | succ n ih =>
    intro len w r h
    unfold writeLoop at h
    simp only at h
    have hcall : ∀ e, (sends (w.call T (Ev.tcp_write tcp (len % 65536) fl e)).log).length
        = (sends w.log).length + 1 := by
      intro e
      rw [call_log, sends_append]
      simp [sends]
    split at h
    · split at h
      · rename_i hgt
        have hih := ih _ _ _ h
        rw [shrink_sends, hcall] at hih
        rcases shrink_fst T tcp len (w.call T (Ev.tcp_write tcp (len % 65536) fl (T.tcp_write w.net tcp (len % 65536) fl)))
          with h1 | h1
        · rw [h1] at hgt; omega
        · rw [h1] at hgt hih
          have hpos : 0 ≤ len := by
            rcases Int.lt_or_le len 0 with hneg | hp
            · exfalso
              obtain ⟨m, rfl⟩ := Int.eq_negSucc_of_lt_zero hneg
              have h2 : (Int.negSucc m).tdiv 2 = -(((m + 1) / 2 : Nat) : Int) := rfl
              rw [h2] at hgt
              omega
            · exact hp
          rw [Int.tdiv_eq_ediv hpos (by decide)] at hgt hih
          have e1 : (max (len / 2) 1).toNat = len.toNat / 2 := by omega
          have e2 : (max len 1).toNat = len.toNat := by omega
          have e3 := log_two_half len.toNat (by omega)
          rw [e1] at hih
          rw [e2]
          omega
      · simp only [Option.some.injEq] at h
        subst h
        simp only [shrink_sends, hcall]
        omega
    · simp only [Option.some.injEq] at h
      subst h
      simp only [hcall]
      omega

/-- The length a run of the loop of `write` ends with, when its last send was
accepted, lies between 0 and the requested length, if that is not negative. -/
theorem writeLoop_accepted_bound {σ : Type} (T : Lwip σ) (tcp : Option Pcb) (fl : Nat) :
    ∀ (fuel : Nat) (len : Int) (w : World σ) (err : err_t) (len1 : Int) (w1 : World σ),
      0 ≤ len → writeLoop T tcp fl fuel len w = some (err, len1, w1) → err = ERR_OK →
      0 ≤ len1 ∧ len1 ≤ len := by
  intro fuel
  induction fuel with
  | zero => intro len w err len1 w1 _ h; simp [writeLoop] at h
  | succ n ih =>
    intro len w err len1 w1 hpos h hok
    unfold writeLoop at h
    simp only at h
    split at h
    · rename_i hmem
      split at h
      · rename_i hgt
        rcases shrink_fst T tcp len (w.call T (Ev.tcp_write tcp (len % 65536) fl (T.tcp_write w.net tcp (len % 65536) fl)))
          with h1 | h1
        · rw [h1] at hgt; omega
        · have hb := ih _ _ _ _ _ (by omega) h hok
          rw [h1, Int.tdiv_eq_ediv hpos (by decide)] at hb
          omega
      · simp only [Option.some.injEq, Prod.mk.injEq] at h
        rw [← h.1, hmem] at hok
        exact absurd hok (by decide)
    · simp only [Option.some.injEq, Prod.mk.injEq] at h
      rw [← h.2.1]
      omega

/-- Within the range of `u16_t`: for every transport and every requested
length `L` with `0 ≤ L ≤ 65535`, the flat-buffer write returns after at most
`⌊log2 (max L 1)⌋ + 1` send attempts, of which all but the last were answered
out-of-memory.  It returns -1 when the last attempt was not accepted, and
otherwise the length of the last attempt, which the transport accepted and
which lies between 0 and `L`.  If the transport accepts the first attempt the
result is `L`. -/
theorem write_result_reflects_accepted_attempt {σ : Type} (T : Lwip σ) (c : TcpConnection)
    (L : Int) (fl : Nat) (w : World σ) (hL : 0 ≤ L) (hR : L ≤ 65535) :
    ∃ (v : Int) (w1 : World σ) (pre : List Int) (last : Int) (err : err_t),
      write T c L fl w = some (v, w1) ∧
      (sends w1.log).drop (sends w.log).length
        = pre.map (fun l => (l, ERR_MEM)) ++ [(last, err)] ∧
      pre.length + 1 ≤ Nat.log 2 (max L 1).toNat + 1 ∧
      ((v = -1 ∧ err ≠ ERR_OK) ∨ (0 ≤ v ∧ v ≤ L ∧ v = last ∧ err = ERR_OK)) ∧
      (T.tcp_write w.net c.tcp L fl = ERR_OK → v = L) := by
  have hsome := writeLoop_terminates T c.tcp fl (L.toNat + 1) L w (Nat.lt_succ_self _)
  obtain ⟨⟨err, len1, w1⟩, hloop⟩ := Option.isSome_iff_exists.1 hsome
  obtain ⟨pre, last, hs, _, _, _, _, hlast⟩ :=
    writeLoop_sends T c.tcp fl _ _ _ _ _ _ hL hR hloop
  have hcount := writeLoop_attempts_log T c.tcp fl _ _ _ _ hloop
  have hdrop : (sends w1.log).drop (sends w.log).length
      = pre.map (fun l => (l, ERR_MEM)) ++ [(last, err)] := by
    rw [hs]; simp
  have hlen : pre.length + 1 ≤ Nat.log 2 (max L 1).toNat + 1 := by
    have : (sends w1.log).length = (sends w.log).length + (pre.length + 1) := by
      rw [hs]; simp
    simp only at hcount
    omega
  have hfirstloop : T.tcp_write w.net c.tcp L fl = ERR_OK → err = ERR_OK ∧ len1 = L := by
    intro hfirst
    have h3 : writeLoop T c.tcp fl (L.toNat + 1) L w
        = some (ERR_OK, L, w.call T (Ev.tcp_write c.tcp L fl ERR_OK)) := by
      unfold writeLoop
      simp only [Int.emod_eq_of_lt hL (show L < 65536 by omega), hfirst]
      rw [if_neg (by decide)]
    rw [hloop] at h3
    simp only [Option.some.injEq, Prod.mk.injEq] at h3
    exact ⟨h3.1, h3.2.1⟩
  by_cases hok : err = ERR_OK
  · have hb := writeLoop_accepted_bound T c.tcp fl _ _ _ _ _ _ hL hloop hok
    have hl : len1 = last := hlast (by rw [hok]; decide)
    refine ⟨len1, w1, pre, last, err, ?_, hdrop, hlen, Or.inr ⟨hb.1, hb.2, hl, hok⟩,
      fun hfirst => (hfirstloop hfirst).2⟩
    unfold write
    rw [hloop]
    simp [hok]
  · refine ⟨-1, w1, pre, last, err, ?_, hdrop, hlen, Or.inl ⟨rfl, hok⟩,
      fun hfirst => absurd (hfirstloop hfirst).1 hok⟩
    unfold write
    rw [hloop]
    simp [hok]

/-- The result within the range of `u16_t` at a concrete input: length 100
against a transport that takes 5 bytes at most. -/
theorem write_result_reflects_accepted_attempt_witness :
    ∃ (v : Int) (w1 : World Unit) (pre : List Int) (last : Int) (err : err_t),
      write (capacityLwip 5) liveCon 100 0 emptyWorld = some (v, w1) ∧
      (sends w1.log).drop (sends emptyWorld.log).length
        = pre.map (fun l => (l, ERR_MEM)) ++ [(last, err)] ∧
      pre.length + 1 ≤ Nat.log 2 (max (100 : Int) 1).toNat + 1 ∧
      ((v = -1 ∧ err ≠ ERR_OK) ∨ (0 ≤ v ∧ v ≤ 100 ∧ v = last ∧ err = ERR_OK)) ∧
      ((capacityLwip 5).tcp_write emptyWorld.net liveCon.tcp 100 0 = ERR_OK → v = 100) :=
  write_result_reflects_accepted_attempt (capacityLwip 5) liveCon 100 0 emptyWorld (by decide)
    (by decide)

/-- C19, as the code behaves: with 2920 free bytes in the send buffer, `write`
of length 66536 makes one send, of the 1000 bytes that the narrowing to
`u16_t` leaves of the length, has it accepted, and returns 66536: the value
returned is not the length of the accepted attempt.  The request is not
negative, and the first attempt was accepted. -/
theorem write_beyond_u16_returns_unsent_length :
    (write bufferLwip liveCon 66536 0 { net := 2920, log := [] }).map
      (fun r => (r.1, sends r.2.log, r.2.net))
      = some (66536, [(1000, ERR_OK)], 1920) ∧
    bufferLwip.tcp_write 2920 liveCon.tcp ((66536 : Int) % 65536) 0 = ERR_OK := by
  constructor
  · decide
  · decide

/-! ## C20: `close()` twice -/

/-- C20: for every object and world, `close()` followed by `close()` leaves
the object and the world (so the transport calls made) exactly as a single
`close()` does.  A `close()` changes no field of the object but the handle,
which is absent afterwards; it makes one transport call, `tcp_arg` with
`NULL` on the handle, when the object held one, and on an object whose handle
is absent it changes nothing and calls nothing. -/
theorem close_idempotent {σ : Type} (T : Lwip σ) (c : TcpConnection) (w : World σ) :
    close T (close T c w).1 (close T c w).2 = close T c w ∧
    (close T c w).1 = { c with tcp := none } ∧
    (close T c w).2 =
      (match c.tcp with
       | none => w
       | some p => w.call T (Ev.tcp_arg (some p) false)) ∧
    close T { c with tcp := none } w = ({ c with tcp := none }, w) := by
  obtain ⟨ctcp, cauto, csleep, csend, cto⟩ := c
  cases ctcp with
  | none => exact ⟨rfl, rfl, rfl, rfl⟩
  | some p => exact ⟨rfl, rfl, rfl, rfl⟩

end Sming
